import Mathlib

/-!
Verification development for the propofol TCI simulator.

The JavaScript sources are shallowly embedded:
pure numeric code over IEEE doubles is idealised over `ℚ` where the
computation is rational-executable (integrator steps, simulation loops,
dose-event bookkeeping) and over `ℝ` where it is transcendental
(the Eleveld covariate model, which uses `exp` and real powers).
Stateful engine objects become explicit state records, and the ambient
wall clock read by the code (`new Date()`) becomes an explicit argument,
so that dependence on it can be stated and settled.
-/

/-- Three-compartment amounts, mirroring `SystemState` as the monitoring and
protocol engines construct it (three arguments; the `ce` slot of the JS class
defaults to `0` and is tracked separately by those engines). -/
structure Compart3 where
  a1 : ℚ
  a2 : ℚ
  a3 : ℚ
deriving DecidableEq

/-- The PK parameter bundle as returned by `calculatePKParameters` of the
induction / monitoring / protocol engines: volumes-derived rate constants,
plus `v1` and `ke0`, all read off the same object in the source. -/
structure PKParamsQ where
  v1 : ℚ
  ke0 : ℚ
  k10 : ℚ
  k12 : ℚ
  k21 : ℚ
  k13 : ℚ
  k31 : ℚ
deriving DecidableEq

/-- Derivatives of the three compartments, mirroring the local `derivatives`
closure of `updateSystemStateRK4` (monitoring-engine.js and the advanced
protocol engine share this body verbatim). -/
structure Derivs3 where
  da1 : ℚ
  da2 : ℚ
  da3 : ℚ

/-- The `derivatives` closure of `updateSystemStateRK4`:
`da1dt = R - (k10+k12+k13)*a1 + k21*a2 + k31*a3`, `da2dt = k12*a1 - k21*a2`,
`da3dt = k13*a1 - k31*a3`. -/
def derivatives (p : PKParamsQ) (infusionRateMgMin : ℚ) (s : Compart3) : Derivs3 :=
  { da1 := infusionRateMgMin - (p.k10 + p.k12 + p.k13) * s.a1 + p.k21 * s.a2 + p.k31 * s.a3
    da2 := p.k12 * s.a1 - p.k21 * s.a2
    da3 := p.k13 * s.a1 - p.k31 * s.a3 }

/-- `MonitoringEngine.updateSystemStateRK4` (identical in
`AdvancedProtocolEngine`): one classical RK4 step.  Note the source applies
no clamping to the result. -/
def updateSystemStateRK4 (p : PKParamsQ) (infusionRateMgMin dt : ℚ) (s : Compart3) : Compart3 :=
  let k1 := derivatives p infusionRateMgMin s
  let k2 := derivatives p infusionRateMgMin
    { a1 := s.a1 + 1/2 * dt * k1.da1, a2 := s.a2 + 1/2 * dt * k1.da2, a3 := s.a3 + 1/2 * dt * k1.da3 }
  let k3 := derivatives p infusionRateMgMin
    { a1 := s.a1 + 1/2 * dt * k2.da1, a2 := s.a2 + 1/2 * dt * k2.da2, a3 := s.a3 + 1/2 * dt * k2.da3 }
  let k4 := derivatives p infusionRateMgMin
    { a1 := s.a1 + dt * k3.da1, a2 := s.a2 + dt * k3.da2, a3 := s.a3 + dt * k3.da3 }
  { a1 := s.a1 + dt / 6 * (k1.da1 + 2 * k2.da1 + 2 * k3.da1 + k4.da1)
    a2 := s.a2 + dt / 6 * (k1.da2 + 2 * k2.da2 + 2 * k3.da2 + k4.da2)
    a3 := s.a3 + dt / 6 * (k1.da3 + 2 * k2.da3 + 2 * k3.da3 + k4.da3) }

/-- `MonitoringEngine.updateSystemStateEuler` (identical in
`AdvancedProtocolEngine`): one explicit Euler step, likewise unclamped. -/
def updateSystemStateEuler (p : PKParamsQ) (infusionRateMgMin dt : ℚ) (s : Compart3) : Compart3 :=
  let d := derivatives p infusionRateMgMin s
  { a1 := s.a1 + dt * d.da1, a2 := s.a2 + dt * d.da2, a3 := s.a3 + dt * d.da3 }

/-- The four-component live state of the induction engine
(`this.state = { a1, a2, a3, ce }` in induction-engine.js). -/
structure IndState where
  a1 : ℚ
  a2 : ℚ
  a3 : ℚ
  ce : ℚ
deriving DecidableEq

/-- `InductionEngine.updateSimulationEuler`: one Euler step with a hard-coded
one-second time step (`dt = 1.0` seconds, converted to minutes by `dt / 60`).
The source mutates `a1,a2,a3` first, reads the plasma concentration from the
updated (not yet clamped) `a1`, advances `ce` from it, and finally clamps all
four components to be non-negative. -/
def updateSimulationEuler (p : PKParamsQ) (continuousDose : ℚ) (s : IndState) : IndState :=
  let dt : ℚ := 1
  let continuousRate := continuousDose / 60
  let da1 := continuousRate - p.k10 * s.a1 - p.k12 * s.a1 + p.k21 * s.a2
      - p.k13 * s.a1 + p.k31 * s.a3
  let da2 := p.k12 * s.a1 - p.k21 * s.a2
  let da3 := p.k13 * s.a1 - p.k31 * s.a3
  let a1 := s.a1 + dt / 60 * da1
  let a2 := s.a2 + dt / 60 * da2
  let a3 := s.a3 + dt / 60 * da3
  let plasmaConc := a1 / p.v1
  let dce := p.ke0 * (plasmaConc - s.ce)
  let ce := s.ce + dt / 60 * dce
  { a1 := max 0 a1, a2 := max 0 a2, a3 := max 0 a3, ce := max 0 ce }

/-- Mutable fields of `InductionEngine` that the embedded operations touch.
`startTime` and the tick argument `now` are wall-clock instants in
milliseconds (JS `Date` subtraction yields milliseconds); `elapsedTime` is in
seconds.  `useLSODA` models the source's `this.useLSODA && this.lsodaSolver`
conjunction as one flag: true exactly when the tick dispatches to the LSODA
path.  The snapshot ring, callbacks and the BIS display value are UI-facing
and are not part of the numeric state modelled here. -/
structure InductionEngineState where
  isRunning : Bool
  startTime : ℚ
  elapsedTime : ℚ
  state : IndState
  bolusDose : ℚ
  continuousDose : ℚ
  useLSODA : Bool
deriving DecidableEq

/-- `InductionEngine.start`: guard against double start, then set
`state = { a1: bolusDose, rest 0 }`, `elapsedTime = 0`, record the wall-clock
start instant, mark running, and instantiate the LSODA solver when the
`LSODA` global is available (`lsodaAvailable`), clearing `useLSODA`
otherwise.  Returns the engine and the boolean result. -/
def inductionStart (e : InductionEngineState) (bolusDose continuousDose now : ℚ)
    (lsodaAvailable : Bool) : InductionEngineState × Bool :=
  if e.isRunning then (e, false)
  else
    ({ isRunning := true, startTime := now, elapsedTime := 0,
       state := { a1 := bolusDose, a2 := 0, a3 := 0, ce := 0 },
       bolusDose := bolusDose, continuousDose := continuousDose,
       useLSODA := e.useLSODA && lsodaAvailable }, true)

/-- `InductionEngine.updateSimulation`: a no-op unless running; otherwise
`elapsedTime` is set to the measured wall-clock delta
`(new Date() - this.startTime) / 1000` and the tick dispatches on
`this.useLSODA && this.lsodaSolver`.  The LSODA branch's solver lives in
`utils/lsoda.js`, outside the sources embedded here, so that branch is
abstracted as the argument `lsoda`: it receives the wall-clock elapsed time
(the source starts its integration window at `this.elapsedTime / 60`) and
the current state, and returns the new state together with the possibly
cleared `useLSODA` flag (the failure handler disables LSODA for the session
and falls back to one Euler step — one behaviour the abstraction ranges
over).  The Euler branch is `updateSimulationEuler`.  The ambient clock read
by the source becomes the explicit argument `now`. -/
def updateSimulation (p : PKParamsQ) (lsoda : ℚ → IndState → IndState × Bool)
    (e : InductionEngineState) (now : ℚ) : InductionEngineState :=
  if e.isRunning then
    let elapsed := (now - e.startTime) / 1000
    if e.useLSODA then
      { e with elapsedTime := elapsed, state := (lsoda elapsed e.state).1,
               useLSODA := (lsoda elapsed e.state).2 }
    else
      { e with elapsedTime := elapsed,
               state := updateSimulationEuler p e.continuousDose e.state }
  else e

/-- A run of `n` timer ticks, each delivered at some wall-clock instant from
`nows` (the source schedules them roughly every second, but the delivery
instants are whatever the host timer produces). -/
def runTicks (p : PKParamsQ) (lsoda : ℚ → IndState → IndState × Bool)
    (e : InductionEngineState) (nows : List ℚ) : InductionEngineState :=
  nows.foldl (updateSimulation p lsoda) e

/-- `InductionEngine.updateDose`: returns `false` and does nothing when not
running; otherwise overwrites both stored dose fields and returns `true`. -/
def updateDose (e : InductionEngineState) (bolusDose continuousDose : ℚ) :
    InductionEngineState × Bool :=
  if e.isRunning then
    ({ e with bolusDose := bolusDose, continuousDose := continuousDose }, true)
  else (e, false)

/-- `DoseEvent` of models.js (time in minutes, bolus in mg, continuous rate
in mg/hr). -/
structure DoseEvent where
  timeInMinutes : ℚ
  bolusMg : ℚ
  continuousMgHr : ℚ
deriving DecidableEq

/-- `DoseEvent.validate`: the source checks only the bolus range
(`0..1000 mg`) and the continuous range (`0..500 mg/hr`); it performs no
check on `timeInMinutes` (the `minimumTime`/`maximumTime` entries of
`ValidationLimits.Dosing` are never consulted). -/
def doseEventValidate (d : DoseEvent) : List String :=
  (if d.bolusMg < 0 ∨ 1000 < d.bolusMg
    then ["Bolus dose must be between 0 mg and 1000 mg"] else [])
  ++ (if d.continuousMgHr < 0 ∨ 500 < d.continuousMgHr
    then ["Continuous infusion rate must be between 0 mg/hr and 500 mg/hr"] else [])

/-- Insert an event into a list that is sorted by `timeInMinutes`, after all
events of smaller or equal time. -/
def insertByTime (d : DoseEvent) : List DoseEvent → List DoseEvent
  | [] => [d]
  | e :: es => if d.timeInMinutes < e.timeInMinutes then d :: e :: es
               else e :: insertByTime d es

/-- Stable sort by `timeInMinutes` (insertion from the left keeps
equal-keyed elements in their original order), modelling the JS
`array.sort((a, b) => a.timeInMinutes - b.timeInMinutes)`, which is a stable
sort. -/
def sortByTime (l : List DoseEvent) : List DoseEvent :=
  l.foldl (fun acc d => insertByTime d acc) []

/-- `MonitoringEngine.addDoseEvent`: throws (here: `Except.error` with the
validation messages) when `validate()` reports errors, leaving the schedule
untouched; otherwise pushes the event and re-sorts by time. -/
def addDoseEvent (events : List DoseEvent) (d : DoseEvent) :
    Except (List String) (List DoseEvent) :=
  if doseEventValidate d = [] then Except.ok (sortByTime (events ++ [d]))
  else Except.error (doseEventValidate d)

/-- `MonitoringEngine.removeDoseEvent`: when `0 ≤ index < length`, splice out
the indexed event and return it; otherwise return `null` (here `none`) and
leave the list unchanged.  `splice(index, 1)` removes exactly the element at
`index`, i.e. keeps the prefix of length `index` and the suffix from
`index + 1`. -/
def removeDoseEvent (events : List DoseEvent) (index : ℤ) :
    Option DoseEvent × List DoseEvent :=
  if 0 ≤ index ∧ index < events.length then
    (events.get? index.toNat, events.take index.toNat ++ events.drop (index.toNat + 1))
  else (none, events)

/-- Bolus entry of the driving streams built by
`calculatePlasmaConcentrationsAdvanced` (`{ time, dose }`). -/
structure BolusEvt where
  time : ℚ
  dose : ℚ
deriving DecidableEq

/-- Infusion-rate entry of the driving streams (`{ time, rate }`). -/
structure InfEvt where
  time : ℚ
  rate : ℚ
deriving DecidableEq

/-- Total bolus given at `t = 0` (becomes the initial condition of `a1`),
as accumulated by both `calculatePlasmaConcentrationsAdvanced` and
`calculatePlasmaConcentrationsRK4`. -/
def initialBolusOf (events : List DoseEvent) : ℚ :=
  events.foldl
    (fun acc e => if e.timeInMinutes = 0 ∧ 0 < e.bolusMg then acc + e.bolusMg else acc) 0

/-- Non-zero-time bolus events, in schedule order
(`calculatePlasmaConcentrationsAdvanced` collects them, then sorts by time;
the schedule is already time-sorted so the collection order is kept). -/
def bolusEventsOf (events : List DoseEvent) : List BolusEvt :=
  events.foldl
    (fun acc e =>
      if 0 < e.bolusMg ∧ e.timeInMinutes ≠ 0 then
        acc ++ [{ time := e.timeInMinutes, dose := e.bolusMg }]
      else acc) []

/-- Infusion-rate change stream: one entry per dose event whose rate differs
from the last collected rate (rate `0` entries included), then an initial
`(0, 0)` entry is prepended when the stream does not already start at time
zero. -/
def infusionEventsOf (events : List DoseEvent) : List InfEvt :=
  let collected := events.foldl
    (fun acc e =>
      match acc.getLast? with
      | none => acc ++ [{ time := e.timeInMinutes, rate := e.continuousMgHr }]
      | some last =>
        if e.continuousMgHr = last.rate then acc
        else acc ++ [{ time := e.timeInMinutes, rate := e.continuousMgHr }]) []
  match collected with
  | [] => [{ time := 0, rate := 0 }]
  | first :: _ => if 0 < first.time then { time := 0, rate := 0 } :: collected else collected

/-- The inner `while` of `calculatePlasmaConcentrationsRK4` that applies all
pending bolus events whose time is within half a step of the current sample
(`t = 0` boluses are skipped: they are already in the initial condition). -/
def applyBoluses (timeStep t : ℚ) : Compart3 → List BolusEvt → Compart3 × List BolusEvt
  | s, [] => (s, [])
  | s, b :: bs =>
    if |b.time - t| < timeStep / 2 then
      applyBoluses timeStep t (if 0 < b.time then { s with a1 := s.a1 + b.dose } else s) bs
    else (s, b :: bs)

/-- The inner `while` that advances the piecewise-constant infusion rate past
all events whose time has been reached. -/
def advanceInfusion (t : ℚ) : ℚ → List InfEvt → ℚ × List InfEvt
  | rate, [] => (rate, [])
  | rate, ev :: evs => if ev.time ≤ t then advanceInfusion t ev.rate evs else (rate, ev :: evs)

/-- Main loop of `calculatePlasmaConcentrationsRK4`: per sample, apply due
boluses, advance the infusion rate, emit `max 0 (a1 / v1)`, and (except after
the final sample) advance the compartment state by one RK4 step with the
rate converted from mg/hr to mg/min. -/
def plasmaLoop (p : PKParamsQ) (timeStep : ℚ) :
    List ℚ → Compart3 → List BolusEvt → List InfEvt → ℚ → List ℚ
  | [], _, _, _, _ => []
  | t :: rest, s, bs, is, rate =>
    let sb := applyBoluses timeStep t s bs
    let ri := advanceInfusion t rate is
    let plasmaConc := max 0 (sb.1.a1 / p.v1)
    plasmaConc ::
      match rest with
      | [] => []
      | _ :: _ =>
        plasmaLoop p timeStep rest (updateSystemStateRK4 p (ri.1 / 60) timeStep sb.1)
          sb.2 ri.2 ri.1

/-- `calculatePlasmaConcentrationsRK4` assembled: initial state carries the
`t = 0` bolus, the infusion rate starts at `0`. -/
def calculatePlasmaConcentrationsRK4 (p : PKParamsQ) (timeStep : ℚ) (events : List DoseEvent)
    (times : List ℚ) : List ℚ :=
  plasmaLoop p timeStep times
    { a1 := initialBolusOf events, a2 := 0, a3 := 0 }
    (bolusEventsOf events) (infusionEventsOf events) 0

/-- The simulation time grid `0, dt, 2·dt, …` built by `runSimulation`
(`for (t = 0; t <= finalDuration; t += timeStep)`), written so that each tail
starts at the next instant. -/
def sampleTimes (timeStep : ℚ) : ℕ → ℚ → List ℚ
  | 0, _ => []
  | n + 1, t => t :: sampleTimes timeStep n (t + timeStep)

/-- The body of one iteration of `calculateEffectSiteConcentrationsRK4`:
one RK4 step of `dCe/dt = ke0 · (Cp − Ce)`, with `Cp` taken as the midpoint
of the two neighbouring plasma samples for the interior stages, and the
result clamped at zero. -/
def ceRK4Step (ke0 cePrev cpPrev cp dt : ℚ) : ℚ :=
  let k1 := ke0 * (cpPrev - cePrev)
  let k2 := ke0 * ((cpPrev + cp) / 2 - (cePrev + 1/2 * dt * k1))
  let k3 := ke0 * ((cpPrev + cp) / 2 - (cePrev + 1/2 * dt * k2))
  let k4 := ke0 * (cp - (cePrev + dt * k3))
  max 0 (cePrev + dt / 6 * (k1 + 2 * k2 + 2 * k3 + k4))

/-- Inner loop of `calculateEffectSiteConcentrationsRK4`: one `ceRK4Step`
per sample with `dt = times[i] - times[i-1]`. -/
def ceLoop (ke0 : ℚ) : ℚ → ℚ → ℚ → List ℚ → List ℚ → List ℚ
  | cePrev, cpPrev, tPrev, cp :: cps, t :: ts =>
    ceRK4Step ke0 cePrev cpPrev cp (t - tPrev) ::
      ceLoop ke0 (ceRK4Step ke0 cePrev cpPrev cp (t - tPrev)) cp t cps ts
  | _, _, _, _, _ => []

/-- `calculateEffectSiteConcentrationsRK4`: the first effect-site sample is
pinned at `0`, later samples come from `ceLoop`. -/
def calculateEffectSiteConcentrationsRK4 (ke0 : ℚ) (cps ts : List ℚ) : List ℚ :=
  match cps, ts with
  | cp0 :: cps1, t0 :: ts1 => 0 :: ceLoop ke0 0 cp0 t0 cps1 ts1
  | _, _ => []

/-- The settings of `AdvancedProtocolEngine` that
`simulateAdvancedStepDownProtocol` consults.  `upperThresholdFactor` embeds
the field called upperThresholdRatio in the source.  `maxAdjustmentsPerHour`
is a whole number in every use (default 3). -/
structure ProtocolSettings where
  targetCe : ℚ
  upperThresholdFactor : ℚ
  reductionFactor : ℚ
  timeStep : ℚ
  simulationDuration : ℚ
  adjustmentInterval : ℚ
  minimumRate : ℚ
  maxAdjustmentsPerHour : ℕ
deriving DecidableEq

/-- One recorded sample of the protocol simulation (the source also stores
the constant target and threshold columns and a bolus marker). -/
structure TracePoint where
  time : ℚ
  ce : ℚ
  plasma : ℚ
  infusionRate : ℚ
  targetCe : ℚ
  upperThreshold : ℚ
  adjustmentNumber : ℕ
  isBolus : Bool
deriving DecidableEq

/-- Loop state of `simulateAdvancedStepDownProtocol`. -/
structure StepDownState where
  sys : Compart3
  ce : ℚ
  rate : ℚ
  lastAdjustmentTime : ℚ
  adjustmentCount : ℕ
  adjustmentsThisHour : ℕ
  currentHour : ℤ
deriving DecidableEq

/-- JS `parseFloat(x.toFixed(1))` for the non-negative sample times that the
protocol loop records: round to one decimal, half away from zero (equal to
`⌊10·x + 1/2⌋ / 10` for `x ≥ 0`). -/
def round1 (x : ℚ) : ℚ := (⌊10 * x + 1/2⌋ : ℤ) / 10

/-- Body of one iteration of `simulateAdvancedStepDownProtocol` at step
index `i`: hourly-counter reset, plasma readout, effect-site Euler update
(skipped at `i = 0`), the guarded step-down, the recorded sample, and the
RK4 state advance (skipped on the last step, flagged by `last`). -/
def stepDownStep (p : PKParamsQ) (C : ProtocolSettings) (upperThreshold : ℚ) (i : ℕ)
    (last : Bool) (st : StepDownState) : StepDownState × TracePoint :=
  let currentTime : ℚ := i * C.timeStep
  let infusionRateMgMin := st.rate / 60
  let hour : ℤ := ⌊currentTime / 60⌋
  let st1 := if st.currentHour < hour
    then { st with currentHour := hour, adjustmentsThisHour := 0 } else st
  let plasmaConc := st1.sys.a1 / p.v1
  let ce1 := if 0 < i then st1.ce + C.timeStep * (p.ke0 * (plasmaConc - st1.ce)) else st1.ce
  let st2 :=
    if upperThreshold ≤ ce1 ∧ C.adjustmentInterval ≤ currentTime - st1.lastAdjustmentTime ∧
        st1.adjustmentsThisHour < C.maxAdjustmentsPerHour ∧ C.minimumRate < st1.rate then
      { st1 with ce := ce1,
                 rate := max C.minimumRate (st1.rate * C.reductionFactor),
                 adjustmentCount := st1.adjustmentCount + 1,
                 adjustmentsThisHour := st1.adjustmentsThisHour + 1,
                 lastAdjustmentTime := currentTime }
    else { st1 with ce := ce1 }
  let tp : TracePoint :=
    { time := round1 currentTime, ce := st2.ce, plasma := plasmaConc,
      infusionRate := st2.rate, targetCe := C.targetCe, upperThreshold := upperThreshold,
      adjustmentNumber := st2.adjustmentCount, isBolus := i = 0 }
  let st3 := if last then st2
    else { st2 with sys := updateSystemStateRK4 p infusionRateMgMin C.timeStep st2.sys }
  (st3, tp)

/-- The stepping loop, `fuel` counting the remaining iterations
(`fuel = numSteps - i`); the state advance is skipped exactly on the last
iteration, matching `if (i < numSteps - 1)`. -/
def stepDownLoop (p : PKParamsQ) (C : ProtocolSettings) (upperThreshold : ℚ) :
    ℕ → ℕ → StepDownState → List TracePoint
  | 0, _, _ => []
  | fuel + 1, i, st =>
    let r := stepDownStep p C upperThreshold i (fuel = 0) st
    r.2 :: stepDownLoop p C upperThreshold fuel (i + 1) r.1

/-- `simulateAdvancedStepDownProtocol`: threshold
`targetCe · upperThresholdFactor`, bolus as initial condition of `a1`,
effect site starting at `0`, initial `lastAdjustmentTime` one interval in the
past, `numSteps = ⌊duration / timeStep⌋ + 1` samples. -/
def simulateAdvancedStepDownProtocol (p : PKParamsQ) (C : ProtocolSettings)
    (bolusDoseMg initialContinuousRate targetCe : ℚ) : List TracePoint :=
  let upperThreshold := targetCe * C.upperThresholdFactor
  let numSteps := (⌊C.simulationDuration / C.timeStep⌋ + 1).toNat
  stepDownLoop p C upperThreshold numSteps 0
    { sys := { a1 := bolusDoseMg, a2 := 0, a3 := 0 }, ce := 0,
      rate := initialContinuousRate, lastAdjustmentTime := -C.adjustmentInterval,
      adjustmentCount := 0, adjustmentsThisHour := 0, currentHour := 0 }

/-- A dosage adjustment as extracted by `generateAdvancedStepDownProtocol`
(its constant `type: 'threshold_reduction'` tag is omitted;
`thresholdQuotient` embeds the field called thresholdRatio there). -/
structure AdjustmentEvent where
  time : ℚ
  oldRate : ℚ
  newRate : ℚ
  ceAtEvent : ℚ
  reductionPercent : ℚ
  adjustmentNumber : ℕ
  thresholdQuotient : ℚ
deriving DecidableEq

/-- The scan of `generateAdvancedStepDownProtocol` over consecutive samples:
a step-down is reported whenever the recorded infusion rate moves by more
than `0.1 mg/hr` between neighbouring samples. -/
def extractAdjustments (targetCe : ℚ) : List TracePoint → ℕ → List AdjustmentEvent
  | p1 :: p2 :: rest, n =>
    if 1/10 < |p2.infusionRate - p1.infusionRate| then
      { time := p2.time, oldRate := p1.infusionRate, newRate := p2.infusionRate,
        ceAtEvent := p2.ce,
        reductionPercent := (p1.infusionRate - p2.infusionRate) / p1.infusionRate * 100,
        adjustmentNumber := n + 1, thresholdQuotient := p2.ce / targetCe }
        :: extractAdjustments targetCe (p2 :: rest) (n + 1)
    else extractAdjustments targetCe (p2 :: rest) n
  | _, _ => []

/-- The `dosageAdjustments` list of `generateAdvancedStepDownProtocol` for
one protocol run. -/
def dosageAdjustments (p : PKParamsQ) (C : ProtocolSettings)
    (bolusDoseMg initialContinuousRate targetCe : ℚ) : List AdjustmentEvent :=
  extractAdjustments targetCe
    (simulateAdvancedStepDownProtocol p C bolusDoseMg initialContinuousRate targetCe) 0

/-- `SexType` of models.js. -/
inductive SexKind
  | male
  | female
deriving DecidableEq

/-- The patient covariates consumed by the Eleveld calculator
(`OpioidType.YES / NO` becomes a boolean). -/
structure PatientData where
  age : ℝ
  weight : ℝ
  height : ℝ
  sex : SexKind
  opioidCoadmin : Bool

/-- `Patient.bmi`: `weight / Math.pow(height / 100, 2)`. -/
noncomputable def patientBMI (pt : PatientData) : ℝ := pt.weight / (pt.height / 100) ^ (2 : ℝ)

/-- `Patient.pma`: post-menstrual age in weeks, `age * 52 + 40`. -/
noncomputable def patientPMA (pt : PatientData) : ℝ := pt.age * 52 + 40

/-- `Patient.ffm_ref`: the Al-Sallami fat-free mass of the fixed reference
individual (35 y, 70 kg, 170 cm, male), with the `ffm_male` constants of
`EleveldModelConstants` inlined. -/
noncomputable def ffmRef : ℝ :=
  let bmiRef : ℝ := 70 / (1.7 : ℝ) ^ (2 : ℝ)
  (0.88 * 9270 * 70) / (6680 + 216 * bmiRef)
    + ((1 - 0.88) / (1 + ((35 : ℝ) / 13.4) ^ (-12.7 : ℝ)))
      * (1.11 * 70 - 128 * ((70 : ℝ) / 170) ^ (2 : ℝ))

/-- `EleveldPKPDCalculator.calculateFFM`: the under-2-years shortcut, then
the sex-specific Al-Sallami closed forms. -/
noncomputable def calculateFFM (pt : PatientData) : ℝ :=
  if pt.age < 2 then pt.weight * 0.82
  else
    match pt.sex with
    | SexKind.male =>
      (0.88 * 9270 * pt.weight) / (6680 + 216 * patientBMI pt)
        + ((1 - 0.88) / (1 + (pt.age / 13.4) ^ (-12.7 : ℝ)))
          * (1.11 * pt.weight - 128 * (pt.weight / pt.height) ^ (2 : ℝ))
    | SexKind.female =>
      (1.11 * 9270 * pt.weight) / (8780 + 244 * patientBMI pt)
        + ((1 - 1.11) / (1 + (pt.age / 7.1) ^ (-1.1 : ℝ)))
          * (1.07 * pt.weight - 148 * (pt.weight / pt.height) ^ (2 : ℝ))

/-- `EleveldPKPDCalculator.f_sigmoid`. -/
noncomputable def f_sigmoid (x e50 lam : ℝ) : ℝ := x ^ lam / (x ^ lam + e50 ^ lam)

/-- `EleveldPKPDCalculator.f_ageing` (every call site uses the default
reference age 35). -/
noncomputable def f_ageing (x age : ℝ) : ℝ := Real.exp (x * (age - 35))

/-- `EleveldPKPDCalculator.f_opiates`. -/
noncomputable def f_opiates (x age : ℝ) (opioidCoadmin : Bool) : ℝ :=
  if opioidCoadmin then Real.exp (x * age) else 1

/-- The PK outputs of `calculatePKParameters` (volumes in L, flows in
L/min, plus the intermediate fat-free mass). -/
structure PKParamsR where
  V1 : ℝ
  V2 : ℝ
  V3 : ℝ
  CL : ℝ
  Q2 : ℝ
  Q3 : ℝ
  FFM : ℝ

/-- `EleveldPKPDCalculator.calculatePKParameters`, with the numeric
`EleveldModelConstants.theta` values inlined at their use sites
(theta 1..6 = 6.28, 25.5, 273, 1.79, 1.83, 1.11; theta 8..16 as below). -/
noncomputable def calculatePKParameters (pt : PatientData) : PKParamsR :=
  let ffm := calculateFFM pt
  let f_central_wgt := f_sigmoid pt.weight 33.6 1
  let f_central_wgt_ref := f_sigmoid 70 33.6 1
  let V1 := 6.28 * (f_central_wgt / f_central_wgt_ref)
  let V2 := 25.5 * (pt.weight / 70) * f_ageing (-0.0156) pt.age
  let V3 := 273 * (ffm / ffmRef) * f_opiates (-0.0138) pt.age pt.opioidCoadmin
  let f_CLmaturation := f_sigmoid (patientPMA pt) 42.3 9.06
  let f_CLmaturation_ref := f_sigmoid (35 * 52 + 40) 42.3 9.06
  let CL_base : ℝ := match pt.sex with
    | SexKind.male => 1.79
    | SexKind.female => 2.10
  let CL := CL_base * (pt.weight / 70) ^ (0.75 : ℝ) * (f_CLmaturation / f_CLmaturation_ref)
    * f_opiates (-0.00286) pt.age pt.opioidCoadmin
  let f_Q3maturation := f_sigmoid (patientPMA pt) 68.3 1
  let f_Q3maturation_ref := f_sigmoid (35 * 52 + 40) 68.3 1
  let Q2 := 1.83 * (V2 / 25.5) ^ (0.75 : ℝ) * (1 + 1.30 * (1 - f_Q3maturation))
  let Q3 := 1.11 * (V3 / 273) ^ (0.75 : ℝ) * (f_Q3maturation / f_Q3maturation_ref)
  { V1 := V1, V2 := V2, V3 := V3, CL := CL, Q2 := Q2, Q3 := Q3, FFM := ffm }

/-- The PD parameter bundle (`PDParameters` of models.js). -/
structure PDParamsR where
  ce50 : ℝ
  ke0 : ℝ
  bisBaseline : ℝ
  gammaLow : ℝ
  gammaHigh : ℝ

/-- `EleveldPKPDCalculator.calculatePDParameters`, with
`EleveldModelConstants.pd_theta` inlined (pd 1, 2, 3, 4, 7, 9 = 3.08,
0.146, 93.0, 1.47, -0.00635, 1.89). -/
noncomputable def calculatePDParameters (pt : PatientData) : PDParamsR :=
  { ce50 := 3.08 * Real.exp (-0.00635 * (pt.age - 35))
    ke0 := 0.146 * (pt.weight / 70) ^ (-0.25 : ℝ)
    bisBaseline := 93.0
    gammaLow := 1.89
    gammaHigh := 1.47 }

/-- `EleveldPKPDCalculator.calculateBIS`: baseline below `ce = 0`, the
asymmetric sigmoid Emax model elsewhere, floored at `0`. -/
noncomputable def calculateBIS (ce : ℝ) (pd : PDParamsR) : ℝ :=
  if ce ≤ 0 then pd.bisBaseline
  else
    let gamma := if ce ≤ pd.ce50 then pd.gammaLow else pd.gammaHigh
    let ce_gamma := ce ^ gamma
    let ce50_gamma := pd.ce50 ^ gamma
    max 0 (pd.bisBaseline * (1 - ce_gamma / (ce50_gamma + ce_gamma)))

/-- The published reference individual: 35 y, 70 kg, 170 cm, male, with
opioid co-administration (the default `OpioidType.YES`). -/
def referencePatient : PatientData :=
  { age := 35, weight := 70, height := 170, sex := SexKind.male, opioidCoadmin := true }

/-- `Math.max(...doseEvents.map(e => e.timeInMinutes))`; `runSimulation`
only evaluates it on a non-empty schedule. -/
def maxEventTimeOf : List DoseEvent → ℚ
  | [] => 0
  | e :: es => es.foldl (fun m x => max m x.timeInMinutes) e.timeInMinutes

/-- The effect-site series exactly as `runSimulation` computes it with the
default horizon `maxEventTime + 120` min on the `0.01`-min grid. -/
def monitoringCeSeries (p : PKParamsQ) (events : List DoseEvent) : List ℚ :=
  let timeStep : ℚ := 1/100
  let finalDuration := maxEventTimeOf events + 120
  let numSamples := (⌊finalDuration / timeStep⌋ + 1).toNat
  let times := sampleTimes timeStep numSamples 0
  calculateEffectSiteConcentrationsRK4 p.ke0
    (calculatePlasmaConcentrationsRK4 p timeStep events times) times

/-- The numeric output bundle of `MonitoringEngine.runSimulation`
(`SimulationResult`), keeping the fields the claims speak about;
`calculatedAt` records the wall-clock instant `new Date()` taken inside
`runSimulation`. -/
structure SimResult where
  timeVector : List ℚ
  plasmaConcentrations : List ℚ
  effectSiteConcentrations : List ℚ
  bisValues : List ℝ
  calculatedAt : ℚ

/-- `MonitoringEngine.runSimulation` (RK4 path): reject an empty schedule,
build the 0.01-min grid up to the requested or default horizon, compute the
plasma, effect-site and BIS series, and stamp the result with the ambient
clock, which is passed explicitly as `now`. -/
noncomputable def runSimulation (p : PKParamsQ) (pd : PDParamsR) (events : List DoseEvent)
    (simulationDurationMin : Option ℚ) (now : ℚ) : Except String SimResult :=
  if events = [] then Except.error "At least one dose event is required for simulation"
  else
    let timeStep : ℚ := 1/100
    let finalDuration := simulationDurationMin.getD (maxEventTimeOf events + 120)
    let numSamples := (⌊finalDuration / timeStep⌋ + 1).toNat
    let times := sampleTimes timeStep numSamples 0
    let cps := calculatePlasmaConcentrationsRK4 p timeStep events times
    let ces := calculateEffectSiteConcentrationsRK4 p.ke0 cps times
    let bis := ces.map (fun ce : ℚ => calculateBIS (ce : ℝ) pd)
    Except.ok { timeVector := times, plasmaConcentrations := cps,
                effectSiteConcentrations := ces, bisValues := bis, calculatedAt := now }

/-- A running induction engine used as concrete input by several witnesses
and counterexamples; an Euler-path session (`useLSODA = false`, reached when
the LSODA global is absent at start or after a solver failure disables it). -/
def engineRun : InductionEngineState :=
  { isRunning := true, startTime := 0, elapsedTime := 0,
    state := { a1 := 100, a2 := 0, a3 := 0, ce := 0 },
    bolusDose := 100, continuousDose := 0, useLSODA := false }

/-- C8 counterexample: `updateDose` overwrites the stored bolus dose
(`this.bolusDose = bolusDose`), so "the stored bolus dose ... unchanged by
the call" fails on a running engine whose stored bolus is 100 mg when
`updateDose(50, 30)` arrives. -/
theorem claim_C8_counterexample :
    (updateDose engineRun 50 30).1.bolusDose ≠ engineRun.bolusDose := by
  norm_num [updateDose, engineRun]

/-- C8 amended: `updateDose` on a running engine overwrites both stored dose
fields but leaves the compartment state, the elapsed time, the start time and
the running flag unchanged; on a non-running engine it is a complete no-op
returning `false`. -/
theorem claim_C8_amended (e : InductionEngineState) (b c : ℚ) :
    (updateDose e b c).1.state = e.state ∧
    (updateDose e b c).1.elapsedTime = e.elapsedTime ∧
    (updateDose e b c).1.startTime = e.startTime ∧
    (updateDose e b c).1.isRunning = e.isRunning ∧
    (updateDose e b c).2 = e.isRunning ∧
    (e.isRunning = false → updateDose e b c = (e, false)) ∧
    (e.isRunning = true →
      (updateDose e b c).1.bolusDose = b ∧ (updateDose e b c).1.continuousDose = c) := by
  cases h : e.isRunning <;> simp [updateDose, h]

/-- C8 witness: the amended theorem evaluated on the concrete running
engine. -/
theorem claim_C8_witness :
    (updateDose engineRun 50 30).1.state = engineRun.state ∧
    (updateDose engineRun 50 30).1.bolusDose = 50 := by
  exact ⟨(claim_C8_amended engineRun 50 30).1,
    ((claim_C8_amended engineRun 50 30).2.2.2.2.2.2 rfl).1⟩

/-- A dose event with a negative schedule time and in-range doses. -/
def negTimeEvent : DoseEvent := { timeInMinutes := -5, bolusMg := 0, continuousMgHr := 0 }

/-- A dose event whose bolus is out of the declared range. -/
def bigBolusEvent : DoseEvent := { timeInMinutes := 3, bolusMg := 2000, continuousMgHr := 0 }

/-- C9 counterexample: `DoseEvent.validate` never looks at `timeInMinutes`,
so an event at `t = -5` min with in-range doses passes validation and
`addDoseEvent` inserts it into the schedule. -/
theorem claim_C9_counterexample :
    addDoseEvent [] negTimeEvent = Except.ok [negTimeEvent] ∧
    negTimeEvent.timeInMinutes < 0 := by
  constructor
  · norm_num [addDoseEvent, doseEventValidate, negTimeEvent, sortByTime, insertByTime]
  · norm_num [negTimeEvent]

/-- C9 amended: `addDoseEvent` validates only the bolus range (0..1000 mg)
and the continuous range (0..500 mg/hr); a violating event raises with a
non-empty error list and nothing is inserted, while any event with in-range
doses — regardless of the sign of its time — is inserted in time order. -/
theorem claim_C9_amended (events : List DoseEvent) (d : DoseEvent) :
    (doseEventValidate d = [] ↔
      (0 ≤ d.bolusMg ∧ d.bolusMg ≤ 1000 ∧ 0 ≤ d.continuousMgHr ∧ d.continuousMgHr ≤ 500)) ∧
    (doseEventValidate d ≠ [] →
      addDoseEvent events d = Except.error (doseEventValidate d)) ∧
    (doseEventValidate d = [] →
      addDoseEvent events d = Except.ok (sortByTime (events ++ [d]))) := by
  have key : doseEventValidate d = [] ↔
      ¬(d.bolusMg < 0 ∨ 1000 < d.bolusMg) ∧ ¬(d.continuousMgHr < 0 ∨ 500 < d.continuousMgHr) := by
    unfold doseEventValidate
    by_cases h1 : d.bolusMg < 0 ∨ 1000 < d.bolusMg <;>
      by_cases h2 : d.continuousMgHr < 0 ∨ 500 < d.continuousMgHr <;>
        simp [h1, h2]
  refine ⟨?_, ?_, ?_⟩
  · rw [key]
    constructor
    · rintro ⟨ha, hb⟩
      push_neg at ha hb
      exact ⟨ha.1, ha.2, hb.1, hb.2⟩
    · rintro ⟨ha, hb, hc, hd⟩
      constructor <;> push_neg <;> exact ⟨by assumption, by assumption⟩
  · intro h
    simp [addDoseEvent, h]
  · intro h
    simp [addDoseEvent, h]

/-- C9 witness: the amended theorem evaluated on an out-of-range bolus. -/
theorem claim_C9_witness :
    addDoseEvent [] bigBolusEvent = Except.error (doseEventValidate bigBolusEvent) := by
  exact (claim_C9_amended [] bigBolusEvent).2.1
    (by norm_num [doseEventValidate, bigBolusEvent])

/-- Concrete dose events for the C10 witness. -/
def evA : DoseEvent := { timeInMinutes := 0, bolusMg := 100, continuousMgHr := 0 }

/-- Second concrete dose event for the C10 witness. -/
def evB : DoseEvent := { timeInMinutes := 10, bolusMg := 50, continuousMgHr := 120 }

/-- C10: `removeDoseEvent` with `0 ≤ i < n` returns exactly the `i`-th event
and deletes exactly that position (earlier positions unchanged, later
positions shifted down by one); any out-of-range index, negative included,
returns `none` and leaves the schedule untouched, and the embedded operation
is total (it never throws). -/
theorem claim_C10 (events : List DoseEvent) (i : ℤ) :
    (0 ≤ i → i < events.length →
      (removeDoseEvent events i).1 = events.get? i.toNat ∧
      (removeDoseEvent events i).2.length = events.length - 1 ∧
      (∀ j : ℕ, j < i.toNat → (removeDoseEvent events i).2.get? j = events.get? j) ∧
      (∀ j : ℕ, i.toNat ≤ j → (removeDoseEvent events i).2.get? j = events.get? (j + 1))) ∧
    ((i < 0 ∨ (events.length : ℤ) ≤ i) → removeDoseEvent events i = (none, events)) := by
  constructor
  · intro h0 hlt
    have hn : i.toNat < events.length := by omega
    have hpos : 0 ≤ i ∧ i < (events.length : ℤ) := ⟨h0, hlt⟩
    refine ⟨?_, ?_, ?_, ?_⟩
    · simp [removeDoseEvent, hpos]
    · simp only [removeDoseEvent, if_pos hpos]
      simp [List.length_take, List.length_drop]
      omega
    · intro j hj
      simp only [removeDoseEvent, if_pos hpos]
      rw [List.get?_append (by simp; omega)]
      exact List.get?_take hj
    · intro j hj
      simp only [removeDoseEvent, if_pos hpos]
      rw [List.get?_append_right (by simp; omega)]
      rw [List.get?_drop]
      congr 1
      simp
      omega
  · intro h
    have : ¬ (0 ≤ i ∧ i < (events.length : ℤ)) := by omega
    simp [removeDoseEvent, this]

/-- C10 witness: removal at index 1 of a two-event schedule, and the
out-of-range no-op at index 5. -/
theorem claim_C10_witness :
    (removeDoseEvent [evA, evB] 1).1 = [evA, evB].get? (1 : ℤ).toNat ∧
    removeDoseEvent [evA, evB] 5 = (none, [evA, evB]) := by
  refine ⟨((claim_C10 [evA, evB] 1).1 (by decide) (by decide)).1,
    (claim_C10 [evA, evB] 5).2 (Or.inr (by decide))⟩

/-- C6: the monitoring simulation consumes no ambient input other than the
wall-clock stamp recorded in `calculatedAt`; two runs with identical patient
parameters and dose events produce identical time, plasma, effect-site and
BIS series whatever the clock reads (the embedding of `runSimulation` is
otherwise a pure function, mirroring a source that calls no random number
generator). -/
theorem claim_C6 (p : PKParamsQ) (pd : PDParamsR) (events : List DoseEvent)
    (dur : Option ℚ) (t1 t2 : ℚ) :
    (runSimulation p pd events dur t1).map
      (fun r => (r.timeVector, r.plasmaConcentrations, r.effectSiteConcentrations, r.bisValues))
    = (runSimulation p pd events dur t2).map
      (fun r => (r.timeVector, r.plasmaConcentrations, r.effectSiteConcentrations, r.bisValues)) := by
  by_cases h : events = []
  · simp [runSimulation, h]
  · unfold runSimulation
    simp only [if_neg h]
    rfl

/-- A parameter bundle with a strong `a3 → a1` coupling and a long step,
used to exhibit a negative RK4 output. -/
def pkStiff : PKParamsQ :=
  { v1 := 1, ke0 := 0, k10 := 0, k12 := 0, k21 := 0, k13 := 10, k31 := 1 }

/-- C4 counterexample: `updateSystemStateRK4` applies no clamping, and from
the non-negative state `(0, 0, 1)` with zero infusion and `dt = 1` it
returns `a1 = -955/24 < 0`. -/
theorem claim_C4_counterexample :
    (0 : ℚ) ≤ (0 : ℚ) ∧ (0 : ℚ) < 1 ∧
    (updateSystemStateRK4 pkStiff 0 1 { a1 := 0, a2 := 0, a3 := 1 }).a1 = -955/24 ∧
    (updateSystemStateRK4 pkStiff 0 1 { a1 := 0, a2 := 0, a3 := 1 }).a1 < 0 := by
  norm_num [updateSystemStateRK4, derivatives, pkStiff]

/-- Every member of a `ceLoop` tail is clamped non-negative. -/
theorem ceLoop_mem_nonneg (ke0 : ℚ) : ∀ (cps ts : List ℚ) (cePrev cpPrev tPrev x : ℚ),
    x ∈ ceLoop ke0 cePrev cpPrev tPrev cps ts → 0 ≤ x := by
  intro cps
  induction cps with
  | nil => intro ts ce cp t x hx; simp [ceLoop] at hx
  | cons cp0 cps1 ih =>
    intro ts ce cp t x hx
    cases ts with
    | nil => simp [ceLoop] at hx
    | cons t0 ts1 =>
      simp only [ceLoop, List.mem_cons] at hx
      rcases hx with h | h
      · rw [h]
        unfold ceRK4Step
        exact le_max_left 0 _
      · exact ih _ _ _ _ _ h

/-- One-step unfolding of `plasmaLoop` on a final sample. -/
theorem plasmaLoop_single (p : PKParamsQ) (dt t : ℚ) (s : Compart3) (bs : List BolusEvt)
    (infs : List InfEvt) (r : ℚ) :
    plasmaLoop p dt [t] s bs infs r = [max 0 ((applyBoluses dt t s bs).1.a1 / p.v1)] := rfl

/-- One-step unfolding of `plasmaLoop` on a non-final sample. -/
theorem plasmaLoop_cons_cons (p : PKParamsQ) (dt t t2 : ℚ) (rest2 : List ℚ) (s : Compart3)
    (bs : List BolusEvt) (infs : List InfEvt) (r : ℚ) :
    plasmaLoop p dt (t :: t2 :: rest2) s bs infs r =
      max 0 ((applyBoluses dt t s bs).1.a1 / p.v1) ::
        plasmaLoop p dt (t2 :: rest2)
          (updateSystemStateRK4 p ((advanceInfusion t r infs).1 / 60) dt (applyBoluses dt t s bs).1)
          (applyBoluses dt t s bs).2 (advanceInfusion t r infs).2 (advanceInfusion t r infs).1 := rfl

/-- Every member of a `plasmaLoop` output is clamped non-negative. -/
theorem plasmaLoop_mem_nonneg (p : PKParamsQ) (dt : ℚ) : ∀ (ts : List ℚ) (s : Compart3)
    (bs : List BolusEvt) (infs : List InfEvt) (r x : ℚ),
    x ∈ plasmaLoop p dt ts s bs infs r → 0 ≤ x := by
  intro ts
  induction ts with
  | nil => intro s bs infs r x hx; simp [plasmaLoop] at hx
  | cons t rest ih =>
    intro s bs infs r x hx
    cases rest with
    | nil =>
      rw [plasmaLoop_single] at hx
      rcases List.mem_singleton.mp hx with h
      rw [h]; exact le_max_left 0 _
    | cons t2 rest2 =>
      rw [plasmaLoop_cons_cons] at hx
      rcases List.mem_cons.mp hx with h | h
      · rw [h]; exact le_max_left 0 _
      · exact ih _ _ _ _ _ h

/-- C4 amended: one `updateSystemStateRK4` step applies no clamping and can
return a negative field even from non-negative inputs with non-negative
rate and positive `dt`; the clamp to zero lives in the consumers instead:
the induction engine's Euler tick clamps all four state components, and the
monitoring engine clamps every emitted plasma sample and every emitted
effect-site sample. -/
theorem claim_C4_amended :
    (∀ (p : PKParamsQ) (cd : ℚ) (s : IndState),
      0 ≤ (updateSimulationEuler p cd s).a1 ∧ 0 ≤ (updateSimulationEuler p cd s).a2 ∧
      0 ≤ (updateSimulationEuler p cd s).a3 ∧ 0 ≤ (updateSimulationEuler p cd s).ce) ∧
    (∀ (ke0 : ℚ) (cps ts : List ℚ) (x : ℚ),
      x ∈ calculateEffectSiteConcentrationsRK4 ke0 cps ts → 0 ≤ x) ∧
    (∀ (p : PKParamsQ) (dt : ℚ) (ts : List ℚ) (s : Compart3) (bs : List BolusEvt)
      (infs : List InfEvt) (r x : ℚ), x ∈ plasmaLoop p dt ts s bs infs r → 0 ≤ x) ∧
    (∃ (p : PKParamsQ) (s : Compart3) (rate dt : ℚ),
      0 ≤ s.a1 ∧ 0 ≤ s.a2 ∧ 0 ≤ s.a3 ∧ 0 ≤ rate ∧ 0 < dt ∧
      (updateSystemStateRK4 p rate dt s).a1 < 0) := by
  refine ⟨?_, ?_, ?_, ?_⟩
  · intro p cd s
    unfold updateSimulationEuler
    exact ⟨le_max_left _ _, le_max_left _ _, le_max_left _ _, le_max_left _ _⟩
  · intro ke0 cps ts x hx
    unfold calculateEffectSiteConcentrationsRK4 at hx
    cases cps with
    | nil => simp at hx
    | cons cp0 cps1 =>
      cases ts with
      | nil => simp at hx
      | cons t0 ts1 =>
        simp only [List.mem_cons] at hx
        rcases hx with h | h
        · rw [h]
        · exact ceLoop_mem_nonneg ke0 _ _ _ _ _ _ h
  · exact fun p dt ts s bs infs r x hx => plasmaLoop_mem_nonneg p dt ts s bs infs r x hx
  · refine ⟨pkStiff, { a1 := 0, a2 := 0, a3 := 1 }, 0, 1, ?_⟩
    norm_num [updateSystemStateRK4, derivatives, pkStiff]

/-- C4 witness: the amended theorem's clamping parts evaluated on a concrete
one-sample plasma run. -/
theorem claim_C4_witness : (0 : ℚ) ≤ 5 := by
  refine claim_C4_amended.2.2.1 pkStiff 1 [0] { a1 := 5, a2 := 0, a3 := 0 } [] [] 0 5 ?_
  norm_num [plasmaLoop, applyBoluses, advanceInfusion, pkStiff]

/-- PK parameters with no inter-compartment exchange, used by several
witnesses and by the engine-agreement counterexample. -/
def pkDemo : PKParamsQ :=
  { v1 := 1, ke0 := 3/5, k10 := 0, k12 := 0, k21 := 0, k13 := 0, k31 := 0 }

/-- C2 counterexample: one tick of the running induction engine sets
`elapsedTime` to the measured wall-clock delta `(now - startTime)/1000`
(2 s for a tick delivered at `now = 2000` ms, 5 s at `now = 5000` ms), not
to the previous value plus a fixed 0.01-min (= 0.6 s) increment; the
elapsed-time assignment precedes the integration dispatch, so the solver
argument is irrelevant here (an arbitrary one is supplied). -/
theorem claim_C2_counterexample :
    (updateSimulation pkDemo (fun _ s => (s, true)) engineRun 2000).elapsedTime
      ≠ (updateSimulation pkDemo (fun _ s => (s, true)) engineRun 5000).elapsedTime ∧
    (updateSimulation pkDemo (fun _ s => (s, true)) engineRun 2000).elapsedTime
      ≠ engineRun.elapsedTime + 3/5 := by
  norm_num [updateSimulation, engineRun]

/-- After any tick the running flag and the dose fields are unchanged, on
both integration paths. -/
theorem updateSimulation_frame (p : PKParamsQ) (lsoda : ℚ → IndState → IndState × Bool)
    (e : InductionEngineState) (now : ℚ) :
    (updateSimulation p lsoda e now).isRunning = e.isRunning ∧
    (updateSimulation p lsoda e now).continuousDose = e.continuousDose ∧
    (updateSimulation p lsoda e now).startTime = e.startTime := by
  by_cases h : e.isRunning <;> by_cases hl : e.useLSODA <;>
    simp [updateSimulation, h, hl]

/-- On an Euler-path session (`useLSODA = false`) the compartment state after
a run of ticks is the iterate of the Euler step, independent of the
wall-clock instants at which the ticks fired and of the solver argument. -/
theorem runTicks_state (p : PKParamsQ) (lsoda : ℚ → IndState → IndState × Bool) :
    ∀ (nows : List ℚ) (e : InductionEngineState),
    e.isRunning = true → e.useLSODA = false →
    (runTicks p lsoda e nows).state
      = (fun s => updateSimulationEuler p e.continuousDose s)^[nows.length] e.state := by
  intro nows
  induction nows with
  | nil => intro e h hl; simp [runTicks]
  | cons t ts ih =>
    intro e h hl
    have h2 : (updateSimulation p lsoda e t).isRunning = true := by
      simp [updateSimulation, h, hl]
    have hl2 : (updateSimulation p lsoda e t).useLSODA = false := by
      simp [updateSimulation, h, hl]
    have hcd : (updateSimulation p lsoda e t).continuousDose = e.continuousDose := by
      simp [updateSimulation, h, hl]
    have hst : (updateSimulation p lsoda e t).state
        = updateSimulationEuler p e.continuousDose e.state := by
      simp [updateSimulation, h, hl]
    have hfold : runTicks p lsoda e (t :: ts) = runTicks p lsoda (updateSimulation p lsoda e t) ts := by
      simp [runTicks]
    rw [hfold, ih _ h2 hl2, hcd, hst, List.length_cons, Function.iterate_succ_apply]

/-- C2 amended: each tick of the running induction engine sets the elapsed
time to the measured wall-clock delta in seconds (not a fixed simulated
increment), and then dispatches on `useLSODA && lsodaSolver`.  On the LSODA
path — the default when the shipped solver loads — the new state is whatever
the solver returns from the wall-clock elapsed time and the current state,
so the state advance reads the clock.  On the Euler path (solver absent at
start, or disabled after a failure) the state advances by one
`updateSimulationEuler` step (1-second Euler, not RK4) with rate
`continuousDose / 60` mg/min, ignoring the clock, so the compartment state
after `n` Euler-path ticks is the `n`-th Euler iterate — a function of the
parameters, doses and `n` only — while the elapsed time is
wall-clock-dependent on every path. -/
theorem claim_C2_amended (p : PKParamsQ) (lsoda : ℚ → IndState → IndState × Bool)
    (e : InductionEngineState) (now : ℚ) (h : e.isRunning = true) :
    (updateSimulation p lsoda e now).elapsedTime = (now - e.startTime) / 1000 ∧
    (e.useLSODA = true →
      (updateSimulation p lsoda e now).state
        = (lsoda ((now - e.startTime) / 1000) e.state).1) ∧
    (e.useLSODA = false →
      (updateSimulation p lsoda e now).state
        = updateSimulationEuler p e.continuousDose e.state ∧
      ∀ nows : List ℚ,
        (runTicks p lsoda e nows).state
          = (fun s => updateSimulationEuler p e.continuousDose s)^[nows.length] e.state) := by
  refine ⟨?_, ?_, ?_⟩
  · by_cases hl : e.useLSODA <;> simp [updateSimulation, h, hl]
  · intro hl
    simp [updateSimulation, h, hl]
  · intro hl
    exact ⟨by simp [updateSimulation, h, hl],
      fun nows => runTicks_state p lsoda nows e h hl⟩

/-- C2 witness: the amended theorem evaluated on the concrete running
Euler-path engine for a tick at `now = 1000` ms and a two-tick run, with an
arbitrary concrete solver supplied for the (untaken) LSODA branch. -/
theorem claim_C2_witness :
    (updateSimulation pkDemo (fun _ s => (s, true)) engineRun 1000).elapsedTime
      = (1000 - engineRun.startTime) / 1000 ∧
    (runTicks pkDemo (fun _ s => (s, true)) engineRun [1, 2]).state
      = (fun s => updateSimulationEuler pkDemo engineRun.continuousDose s)^[2] engineRun.state := by
  refine ⟨(claim_C2_amended pkDemo (fun _ s => (s, true)) engineRun 1000 rfl).1, ?_⟩
  have h := ((claim_C2_amended pkDemo (fun _ s => (s, true)) engineRun 1000 rfl).2.2 rfl).2 [1, 2]
  simpa using h

/-- With zero infusion the zero state has zero derivatives. -/
theorem derivatives_zero (p : PKParamsQ) :
    derivatives p 0 { a1 := 0, a2 := 0, a3 := 0 } = { da1 := 0, da2 := 0, da3 := 0 } := by
  simp [derivatives]

/-- The zero state is a fixed point of the RK4 step at zero infusion. -/
theorem updateSystemStateRK4_zero (p : PKParamsQ) (dt : ℚ) :
    updateSystemStateRK4 p 0 dt { a1 := 0, a2 := 0, a3 := 0 } = { a1 := 0, a2 := 0, a3 := 0 } := by
  simp [updateSystemStateRK4, derivatives]

/-- The zero state is a fixed point of the Euler step at zero infusion. -/
theorem updateSystemStateEuler_zero (p : PKParamsQ) (dt : ℚ) :
    updateSystemStateEuler p 0 dt { a1 := 0, a2 := 0, a3 := 0 } = { a1 := 0, a2 := 0, a3 := 0 } := by
  simp [updateSystemStateEuler, derivatives]

/-- Advancing the infusion pointer through all-zero rate events keeps the
current rate at zero and leaves only all-zero events pending. -/
theorem advanceInfusion_zero : ∀ (infs : List InfEvt) (t r : ℚ),
    (∀ ev ∈ infs, ev.rate = 0) → r = 0 →
    (advanceInfusion t r infs).1 = 0 ∧ ∀ ev ∈ (advanceInfusion t r infs).2, ev.rate = 0 := by
  intro infs
  induction infs with
  | nil => intro t r _ hr; simp [advanceInfusion, hr]
  | cons ev evs ih =>
    intro t r hall hr
    by_cases h : ev.time ≤ t
    · have h0 : ev.rate = 0 := hall ev (List.mem_cons_self ev evs)
      have := ih t ev.rate (fun e he => hall e (List.mem_cons_of_mem ev he)) h0
      simpa [advanceInfusion, h] using this
    · refine ⟨by simp [advanceInfusion, h, hr], ?_⟩
      simpa [advanceInfusion, h] using hall

/-- With no bolus events, a zero state, zero current rate and an all-zero
rate stream, every plasma sample is zero. -/
theorem plasmaLoop_zero (p : PKParamsQ) (dt : ℚ) : ∀ (ts : List ℚ) (infs : List InfEvt) (r : ℚ),
    (∀ ev ∈ infs, ev.rate = 0) → r = 0 →
    ∀ x ∈ plasmaLoop p dt ts { a1 := 0, a2 := 0, a3 := 0 } [] infs r, x = 0 := by
  intro ts
  induction ts with
  | nil => intro infs r _ _ x hx; simp [plasmaLoop] at hx
  | cons t rest ih =>
    intro infs r hall hr x hx
    have hadv := advanceInfusion_zero infs t r hall hr
    cases rest with
    | nil =>
      rw [plasmaLoop_single] at hx
      rcases List.mem_singleton.mp hx with h
      simp [h, applyBoluses]
    | cons t2 rest2 =>
      rw [plasmaLoop_cons_cons] at hx
      rcases List.mem_cons.mp hx with h | h
      · simp [h, applyBoluses]
      · have hstate : updateSystemStateRK4 p ((advanceInfusion t r infs).1 / 60) dt
            (applyBoluses dt t { a1 := 0, a2 := 0, a3 := 0 } ([] : List BolusEvt)).1
            = { a1 := 0, a2 := 0, a3 := 0 } := by
          rw [show (applyBoluses dt t { a1 := 0, a2 := 0, a3 := 0 } ([] : List BolusEvt)).1
              = { a1 := 0, a2 := 0, a3 := 0 } from rfl, hadv.1]
          simpa using updateSystemStateRK4_zero p dt
        rw [show (applyBoluses dt t { a1 := 0, a2 := 0, a3 := 0 } ([] : List BolusEvt)).2
            = ([] : List BolusEvt) from rfl, hstate] at h
        exact ih (advanceInfusion t r infs).2 (advanceInfusion t r infs).1 hadv.2 hadv.1 x h

/-- With an all-zero plasma series the clamped effect-site recursion stays
at zero. -/
theorem ceLoop_zero (ke0 : ℚ) : ∀ (cps ts : List ℚ) (ce cp t : ℚ),
    (∀ x ∈ cps, x = 0) → ce = 0 → cp = 0 →
    ∀ x ∈ ceLoop ke0 ce cp t cps ts, x = 0 := by
  intro cps
  induction cps with
  | nil => intro ts ce cp t _ _ _ x hx; simp [ceLoop] at hx
  | cons cp0 cps1 ih =>
    intro ts ce cp t hall hce hcp
    cases ts with
    | nil => intro x hx; simp [ceLoop] at hx
    | cons t0 ts1 =>
      intro x hx
      have hcp0 : cp0 = 0 := hall cp0 (List.mem_cons_self cp0 cps1)
      have hstep : ceRK4Step ke0 ce cp cp0 (t0 - t) = 0 := by
        simp [ceRK4Step, hce, hcp, hcp0]
      simp only [ceLoop, List.mem_cons, hstep] at hx
      rcases hx with h | h
      · exact h
      · exact ih ts1 0 cp0 t0 (fun y hy => hall y (List.mem_cons_of_mem cp0 hy)) rfl hcp0 x h

/-- The dose schedule with a single event carrying no bolus and zero rate. -/
def zeroEvent : DoseEvent := { timeInMinutes := 0, bolusMg := 0, continuousMgHr := 0 }

/-- C5: for every parameter set, every time step and every horizon, the
monitoring pipeline run on the zero-dose schedule keeps every plasma sample
and every effect-site sample identically 0, and the zero compartment state
is a fixed point of both the RK4 and the Euler step at zero infusion. -/
theorem claim_C5 (p : PKParamsQ) (dt : ℚ) (n : ℕ) :
    (∀ x ∈ calculatePlasmaConcentrationsRK4 p dt [zeroEvent] (sampleTimes dt n 0), x = 0) ∧
    (∀ x ∈ calculateEffectSiteConcentrationsRK4 p.ke0
        (calculatePlasmaConcentrationsRK4 p dt [zeroEvent] (sampleTimes dt n 0))
        (sampleTimes dt n 0), x = 0) ∧
    updateSystemStateRK4 p 0 dt { a1 := 0, a2 := 0, a3 := 0 } = { a1 := 0, a2 := 0, a3 := 0 } ∧
    updateSystemStateEuler p 0 dt { a1 := 0, a2 := 0, a3 := 0 } = { a1 := 0, a2 := 0, a3 := 0 } := by
  have hib : initialBolusOf [zeroEvent] = 0 := by norm_num [initialBolusOf, zeroEvent]
  have hbe : bolusEventsOf [zeroEvent] = [] := by norm_num [bolusEventsOf, zeroEvent]
  have hie : infusionEventsOf [zeroEvent] = [{ time := 0, rate := 0 }] := by
    norm_num [infusionEventsOf, zeroEvent]
  have hplasma : ∀ x ∈ calculatePlasmaConcentrationsRK4 p dt [zeroEvent] (sampleTimes dt n 0),
      x = 0 := by
    intro x hx
    rw [calculatePlasmaConcentrationsRK4, hib, hbe, hie] at hx
    refine plasmaLoop_zero p dt _ _ 0 ?_ rfl x hx
    intro ev hev
    simp only [List.mem_singleton] at hev
    rw [hev]
  refine ⟨hplasma, ?_, updateSystemStateRK4_zero p dt, updateSystemStateEuler_zero p dt⟩
  intro x hx
  set T := sampleTimes dt n 0 with hT
  set L := calculatePlasmaConcentrationsRK4 p dt [zeroEvent] T with hL
  clear hT hL hib hbe hie
  clear_value T L
  cases L with
  | nil => simp [calculateEffectSiteConcentrationsRK4] at hx
  | cons cp0 cps1 =>
    cases T with
    | nil => simp [calculateEffectSiteConcentrationsRK4] at hx
    | cons t0 ts1 =>
      simp only [calculateEffectSiteConcentrationsRK4, List.mem_cons] at hx
      rcases hx with h | h
      · exact h
      · have hcp0 : cp0 = 0 := hplasma cp0 (List.mem_cons_self cp0 cps1)
        refine ceLoop_zero p.ke0 cps1 ts1 0 cp0 t0 ?_ rfl hcp0 x h
        intro y hy
        exact hplasma y (List.mem_cons_of_mem cp0 hy)

/-- C5 witness: the fixed-point part and the plasma part of the claim
evaluated on a concrete one-sample zero-dose run. -/
theorem claim_C5_witness :
    updateSystemStateRK4 pkDemo 0 1 { a1 := 0, a2 := 0, a3 := 0 } = { a1 := 0, a2 := 0, a3 := 0 } ∧
    (0 : ℚ) = 0 := by
  refine ⟨(claim_C5 pkDemo 1 0).2.2.1, ?_⟩
  refine (claim_C5 pkDemo 1 1).1 0 ?_
  norm_num [calculatePlasmaConcentrationsRK4, plasmaLoop, applyBoluses, advanceInfusion,
    initialBolusOf, bolusEventsOf, infusionEventsOf, sampleTimes, zeroEvent, pkDemo,
    plasmaLoop_single]

/-- The sample grid has exactly the requested number of entries. -/
theorem sampleTimes_length (dt : ℚ) : ∀ (n : ℕ) (t : ℚ), (sampleTimes dt n t).length = n := by
  intro n
  induction n with
  | zero => intro t; rfl
  | succ m ih => intro t; simp [sampleTimes, ih]

/-- One-step unfolding of `ceLoop`. -/
theorem ceLoop_cons (ke ce cp t cp0 t0 : ℚ) (cps ts : List ℚ) :
    ceLoop ke ce cp t (cp0 :: cps) (t0 :: ts) =
      ceRK4Step ke ce cp cp0 (t0 - t) ::
        ceLoop ke (ceRK4Step ke ce cp cp0 (t0 - t)) cp0 t0 cps ts := rfl

/-- The per-step contraction factor of the monitoring effect-site RK4 at
`ke0 = 3/5` and `dt = 0.01` min: the degree-4 Taylor polynomial of
`exp` evaluated at `-3/500`. -/
def qce : ℚ := 497008982027/500000000000

/-- With both neighbouring plasma samples equal to 100, one clamped ce step
at `ke0 = 3/5`, `dt = 0.01` is the affine contraction by `qce` toward 100. -/
theorem ceStep_const (ce t : ℚ) (h0 : 0 ≤ ce) (h1 : ce ≤ 100) :
    ceRK4Step (3/5) ce 100 100 (t + 1/100 - t) = 100 + qce * (ce - 100) := by
  have hq0 : (0:ℚ) ≤ qce := by norm_num [qce]
  have hq1 : qce ≤ 1 := by norm_num [qce]
  have key : ∀ X : ℚ, X = 100 + qce * (ce - 100) → max 0 X = 100 + qce * (ce - 100) := by
    intro X hX
    rw [hX]
    refine max_eq_right ?_
    have hmul : qce * (100 - ce) ≤ 1 * 100 :=
      mul_le_mul hq1 (by linarith) (by linarith) (by norm_num)
    nlinarith
  unfold ceRK4Step
  exact key _ (by unfold qce; ring)

/-- Closed form for the monitoring effect-site recursion on a constant-100
plasma stretch over the 0.01-min grid: the `j`-th produced sample is
`100 + qce^(j+1) · (ce₀ - 100)`. -/
theorem ceLoop_const_get : ∀ (n j : ℕ) (ce t : ℚ), j < n → 0 ≤ ce → ce ≤ 100 →
    (ceLoop (3/5) ce 100 t (List.replicate n 100) (sampleTimes (1/100) n (t + 1/100))).get? j
      = some (100 + qce^(j+1) * (ce - 100)) := by
  intro n
  induction n with
  | zero => intro j ce t hj; omega
  | succ m ih =>
    intro j ce t hj h0 h1
    rw [List.replicate_succ, sampleTimes, ceLoop_cons, ceStep_const ce t h0 h1]
    have hq0 : (0:ℚ) ≤ qce := by norm_num [qce]
    have hq1 : qce ≤ 1 := by norm_num [qce]
    have hle : 100 + qce * (ce - 100) ≤ 100 := by nlinarith
    have hge : 0 ≤ 100 + qce * (ce - 100) := by nlinarith
    cases j with
    | zero => simp [pow_one]
    | succ j' =>
      have hj' : j' < m := by omega
      rw [List.get?_cons_succ]
      rw [ih j' (100 + qce * (ce - 100)) (t + 1/100) hj' hge hle]
      congr 1
      ring

/-- With `pkDemo` (no exchange, no elimination) and zero infusion, the
state `(100, 0, 0)` is a fixed point of the RK4 step. -/
theorem rk4_pkDemo_const (dt : ℚ) :
    updateSystemStateRK4 pkDemo 0 dt { a1 := 100, a2 := 0, a3 := 0 }
      = { a1 := 100, a2 := 0, a3 := 0 } := by
  simp [updateSystemStateRK4, derivatives, pkDemo]

/-- With `pkDemo`, a 100-mg bolus and an all-zero rate stream, every plasma
sample equals 100. -/
theorem plasmaLoop_const (dt : ℚ) : ∀ (ts : List ℚ) (infs : List InfEvt) (r : ℚ),
    (∀ ev ∈ infs, ev.rate = 0) → r = 0 →
    plasmaLoop pkDemo dt ts { a1 := 100, a2 := 0, a3 := 0 } [] infs r
      = List.replicate ts.length 100 := by
  intro ts
  induction ts with
  | nil => intro infs r _ _; rfl
  | cons t rest ih =>
    intro infs r hall hr
    have hadv := advanceInfusion_zero infs t r hall hr
    cases rest with
    | nil =>
      rw [plasmaLoop_single]
      norm_num [applyBoluses, pkDemo]
    | cons t2 rest2 =>
      rw [plasmaLoop_cons_cons]
      have hstate : updateSystemStateRK4 pkDemo ((advanceInfusion t r infs).1 / 60) dt
          (applyBoluses dt t { a1 := 100, a2 := 0, a3 := 0 } ([] : List BolusEvt)).1
          = { a1 := 100, a2 := 0, a3 := 0 } := by
        rw [show (applyBoluses dt t { a1 := 100, a2 := 0, a3 := 0 } ([] : List BolusEvt)).1
            = { a1 := 100, a2 := 0, a3 := 0 } from rfl, hadv.1]
        simpa using rk4_pkDemo_const dt
      rw [show (applyBoluses dt t { a1 := 100, a2 := 0, a3 := 0 } ([] : List BolusEvt)).2
          = ([] : List BolusEvt) from rfl, hstate,
        ih (advanceInfusion t r infs).2 (advanceInfusion t r infs).1 hadv.2 hadv.1]
      norm_num [applyBoluses, pkDemo, List.replicate_succ]

/-- One induction-engine Euler tick with `pkDemo`, zero infusion and the
compartments pinned at `(100, 0, 0)`: `a1` stays at 100 and the effect site
contracts toward 100 by the per-tick factor `99/100`
(`1 - ke0·dt = 1 - (3/5)·(1/60)`). -/
theorem indEuler_const (ce : ℚ) (h0 : 0 ≤ ce) (h1 : ce ≤ 100) :
    updateSimulationEuler pkDemo 0 { a1 := 100, a2 := 0, a3 := 0, ce := ce }
      = { a1 := 100, a2 := 0, a3 := 0, ce := 100 - (99/100) * (100 - ce) } := by
  have key : ∀ X : ℚ, X = 100 - (99/100) * (100 - ce) → max 0 X = 100 - (99/100) * (100 - ce) := by
    intro X hX
    rw [hX]
    refine max_eq_right ?_
    nlinarith
  unfold updateSimulationEuler pkDemo
  norm_num
  exact key _ (by ring)

/-- Closed form for the induction engine's effect site after `n` ticks from
the 100-mg bolus start state with zero continuous rate. -/
theorem indIter_const : ∀ n : ℕ,
    (fun s => updateSimulationEuler pkDemo 0 s)^[n] { a1 := 100, a2 := 0, a3 := 0, ce := 0 }
      = { a1 := 100, a2 := 0, a3 := 0, ce := 100 - 100 * (99/100)^n } := by
  intro n
  induction n with
  | zero => norm_num
  | succ m ih =>
    rw [Function.iterate_succ_apply', ih]
    have hr0 : (0:ℚ) ≤ (99/100)^m := by positivity
    have hr1 : ((99:ℚ)/100)^m ≤ 1 := pow_le_one₀ (by norm_num) (by norm_num)
    rw [indEuler_const (100 - 100 * (99/100)^m) (by nlinarith) (by nlinarith)]
    congr 1
    rw [pow_succ]
    ring

/-- Unfolding of `calculateEffectSiteConcentrationsRK4` on non-empty
series. -/
theorem ceSeries_cons (ke0 cp0 t0 : ℚ) (cps1 ts1 : List ℚ) :
    calculateEffectSiteConcentrationsRK4 ke0 (cp0 :: cps1) (t0 :: ts1)
      = 0 :: ceLoop ke0 0 cp0 t0 cps1 ts1 := rfl

/-- The monitoring run for the schedule "100 mg bolus at t = 0, rate 0"
with `pkDemo`: at the 1-minute sample (index 100 of the 0.01-min grid) the
effect site is exactly `100·(1 - qce^100)`. -/
theorem monitoringCe_get100 :
    (monitoringCeSeries pkDemo [evA]).get? 100 = some (100 - 100 * qce^100) := by
  have h12001 : (⌊(maxEventTimeOf [evA] + 120) / ((1:ℚ)/100)⌋ + 1).toNat = 12001 := by
    norm_num [maxEventTimeOf, evA]
    rfl
  have hib : initialBolusOf [evA] = 100 := by norm_num [initialBolusOf, evA]
  have hbe : bolusEventsOf [evA] = [] := by norm_num [bolusEventsOf, evA]
  have hie : infusionEventsOf [evA] = [{ time := 0, rate := 0 }] := by
    norm_num [infusionEventsOf, evA]
  have hplas : calculatePlasmaConcentrationsRK4 pkDemo (1/100) [evA]
      (sampleTimes (1/100) 12001 0) = List.replicate 12001 100 := by
    rw [calculatePlasmaConcentrationsRK4, hib, hbe, hie,
      plasmaLoop_const (1/100) (sampleTimes (1/100) 12001 0) [{ time := 0, rate := 0 }] 0
        (by intro ev hev; simp only [List.mem_singleton] at hev; rw [hev]) rfl,
      sampleTimes_length]
  have hke : pkDemo.ke0 = 3/5 := rfl
  rw [monitoringCeSeries, h12001, hplas, hke,
    show (12001 : ℕ) = 12000 + 1 from by norm_num, List.replicate_succ, sampleTimes,
    ceSeries_cons,
    show (100 : ℕ) = 99 + 1 from by norm_num, List.get?_cons_succ,
    ceLoop_const_get 12000 99 0 0 (by norm_num) le_rfl (by norm_num)]
  norm_num
  ring

/-- C7 counterexample: for the schedule "140-free demo: 100 mg bolus at
t = 0, zero continuous rate" and the parameter bundle `pkDemo`, the
induction engine advanced 60 one-second Euler ticks reaches
`ce = 100·(1 - (99/100)^60) ≈ 45.284`, while the monitoring engine's sample
at 1 min is `100·(1 - qce^100) ≈ 45.119`; they differ by more than 0.16,
far beyond the claimed 1e-6 agreement. -/
theorem claim_C7_counterexample :
    (monitoringCeSeries pkDemo [evA]).get? 100 = some (100 - 100 * qce^100) ∧
    ((fun s => updateSimulationEuler pkDemo 0 s)^[60]
        { a1 := 100, a2 := 0, a3 := 0, ce := 0 }).ce = 100 - 100 * (99/100)^60 ∧
    1/1000000 < (100 - 100 * (99/100)^60) - (100 - 100 * qce^100) := by
  refine ⟨monitoringCe_get100, ?_, ?_⟩
  · rw [indIter_const 60]
  · norm_num [qce]

/-- The zero state is a fixed point of the induction Euler tick at zero
continuous rate. -/
theorem indEuler_zero (p : PKParamsQ) :
    updateSimulationEuler p 0 { a1 := 0, a2 := 0, a3 := 0, ce := 0 }
      = { a1 := 0, a2 := 0, a3 := 0, ce := 0 } := by
  simp [updateSimulationEuler]

/-- For the zero-dose schedule every plasma and effect-site sample of the
monitoring pipeline is zero, on any grid. -/
theorem zeroSchedule_ce_zero (p : PKParamsQ) (dt : ℚ) (ts : List ℚ) :
    ∀ x ∈ calculateEffectSiteConcentrationsRK4 p.ke0
        (calculatePlasmaConcentrationsRK4 p dt [zeroEvent] ts) ts, x = 0 := by
  have hib : initialBolusOf [zeroEvent] = 0 := by norm_num [initialBolusOf, zeroEvent]
  have hbe : bolusEventsOf [zeroEvent] = [] := by norm_num [bolusEventsOf, zeroEvent]
  have hie : infusionEventsOf [zeroEvent] = [{ time := 0, rate := 0 }] := by
    norm_num [infusionEventsOf, zeroEvent]
  have hplasma : ∀ x ∈ calculatePlasmaConcentrationsRK4 p dt [zeroEvent] ts, x = 0 := by
    intro x hx
    rw [calculatePlasmaConcentrationsRK4, hib, hbe, hie] at hx
    refine plasmaLoop_zero p dt _ _ 0 ?_ rfl x hx
    intro ev hev
    simp only [List.mem_singleton] at hev
    rw [hev]
  intro x hx
  set T := ts with hT
  set L := calculatePlasmaConcentrationsRK4 p dt [zeroEvent] T with hL
  clear hT hL hib hbe hie
  clear_value T L
  cases L with
  | nil => simp [calculateEffectSiteConcentrationsRK4] at hx
  | cons cp0 cps1 =>
    cases T with
    | nil => simp [calculateEffectSiteConcentrationsRK4] at hx
    | cons t0 ts1 =>
      simp only [calculateEffectSiteConcentrationsRK4, List.mem_cons] at hx
      rcases hx with h | h
      · exact h
      · have hcp0 : cp0 = 0 := hplasma cp0 (List.mem_cons_self cp0 cps1)
        refine ceLoop_zero p.ke0 cps1 ts1 0 cp0 t0 ?_ rfl hcp0 x h
        intro y hy
        exact hplasma y (List.mem_cons_of_mem cp0 hy)

/-- C7 amended: the two engines do not integrate alike (1-second Euler ticks
against 0.01-minute RK4 samples) and their effect-site values can differ at
1-minute samples by far more than 1e-6; the exact agreement that does hold
is on the zero-dose schedule, where both engines keep the effect site
identically zero at every tick and every sample. -/
theorem claim_C7_amended (p : PKParamsQ) (n : ℕ) :
    (fun s => updateSimulationEuler p 0 s)^[n] { a1 := 0, a2 := 0, a3 := 0, ce := 0 }
      = { a1 := 0, a2 := 0, a3 := 0, ce := 0 } ∧
    ∀ x ∈ monitoringCeSeries p [zeroEvent], x = 0 := by
  constructor
  · exact Function.iterate_fixed (indEuler_zero p) n
  · intro x hx
    rw [monitoringCeSeries] at hx
    exact zeroSchedule_ce_zero p (1/100) _ x hx

/-- C7 witness: the amended theorem's induction part evaluated for a
two-tick run. -/
theorem claim_C7_witness :
    (fun s => updateSimulationEuler pkDemo 0 s)^[2] { a1 := 0, a2 := 0, a3 := 0, ce := 0 }
      = { a1 := 0, a2 := 0, a3 := 0, ce := 0 } :=
  (claim_C7_amended pkDemo 2).1

/-- PK parameters for the protocol counterexample: no exchange, `ke0 = 1/5`
so that with `timeStep = 5` the effect site tracks plasma exactly. -/
def pkProto : PKParamsQ :=
  { v1 := 1, ke0 := 1/5, k10 := 0, k12 := 0, k21 := 0, k13 := 0, k31 := 0 }

/-- Protocol settings for the counterexample: the defaults with a coarser
5-min grid and a 70-min horizon (both reachable through `updateSettings`). -/
def protoSettingsCx : ProtocolSettings :=
  { targetCe := 3, upperThresholdFactor := 6/5, reductionFactor := 7/10, timeStep := 5,
    simulationDuration := 70, adjustmentInterval := 5, minimumRate := 1/10,
    maxAdjustmentsPerHour := 3 }

/-- C3 counterexample: with `maxAdjustmentsPerHour = 3` the run fires
step-downs at 5, 10, 15 (hour block 0) and — after the counter resets at the
hour boundary — at 60, 65, 70 (hour block 1).  The four adjustments at
15, 60, 65 and 70 min all lie in one 60-minute window (span 55 min), so the
"at most `max_adjustments_per_hour` in any 60-minute window" clause fails:
the hourly budget is enforced per clock-hour block, not per sliding
window. -/
theorem claim_C3_counterexample :
    (dosageAdjustments pkProto protoSettingsCx 100 100 3).map (fun e => e.time)
      = [5, 10, 15, 60, 65, 70] ∧
    ((dosageAdjustments pkProto protoSettingsCx 100 100 3).filter
      (fun e => decide (15 ≤ e.time ∧ e.time ≤ 70))).length = 4 ∧
    protoSettingsCx.maxAdjustmentsPerHour = 3 ∧
    (70 : ℚ) - 15 < 60 := by
  have hN : (⌊protoSettingsCx.simulationDuration / protoSettingsCx.timeStep⌋ + 1).toNat = 15 := by
    norm_num [protoSettingsCx]
    rfl
  have htrace :
      dosageAdjustments pkProto protoSettingsCx 100 100 3
        = extractAdjustments 3
            (stepDownLoop pkProto protoSettingsCx (3 * protoSettingsCx.upperThresholdFactor) 15 0
              { sys := { a1 := 100, a2 := 0, a3 := 0 }, ce := 0, rate := 100,
                lastAdjustmentTime := -protoSettingsCx.adjustmentInterval,
                adjustmentCount := 0, adjustmentsThisHour := 0, currentHour := 0 }) 0 := by
    rw [dosageAdjustments, simulateAdvancedStepDownProtocol, hN]
  rw [htrace]
  norm_num [stepDownLoop, stepDownStep, round1, updateSystemStateRK4, derivatives,
    extractAdjustments, protoSettingsCx, pkProto, abs_eq_max_neg, max_def]

/-- `toFixed(1)` is the identity on non-negative multiples of one tenth. -/
theorem round1_natMul (i m : ℕ) :
    round1 ((i : ℚ) * ((m : ℚ) / 10)) = (i : ℚ) * ((m : ℚ) / 10) := by
  unfold round1
  have h1 : (10:ℚ) * ((i:ℚ) * ((m:ℚ)/10)) + 1/2 = ((i*m : ℕ) : ℚ) + 1/2 := by
    push_cast
    ring
  have h2 : ⌊((i*m : ℕ) : ℚ) + 1/2⌋ = ((i*m : ℕ) : ℤ) := by
    rw [Int.floor_eq_iff]
    constructor
    · push_cast
      linarith
    · push_cast
      linarith
  rw [h1, h2]
  push_cast
  ring

/-- Unfolding of the adjustment scan at a final sample. -/
theorem extractAdjustments_single (target : ℚ) (tp : TracePoint) (n : ℕ) :
    extractAdjustments target [tp] n = [] := rfl

/-- Unfolding of the adjustment scan on one pair of samples. -/
theorem extractAdjustments_cons (target : ℚ) (tp1 tp2 : TracePoint) (rest : List TracePoint)
    (n : ℕ) :
    extractAdjustments target (tp1 :: tp2 :: rest) n =
      if 1/10 < |tp2.infusionRate - tp1.infusionRate| then
        { time := tp2.time, oldRate := tp1.infusionRate, newRate := tp2.infusionRate,
          ceAtEvent := tp2.ce,
          reductionPercent := (tp1.infusionRate - tp2.infusionRate) / tp1.infusionRate * 100,
          adjustmentNumber := n + 1, thresholdQuotient := tp2.ce / target }
          :: extractAdjustments target (tp2 :: rest) (n + 1)
      else extractAdjustments target (tp2 :: rest) n := rfl

/-- Unfolding of one iteration of the stepping loop. -/
theorem stepDownLoop_succ (p : PKParamsQ) (C : ProtocolSettings) (u : ℚ) (fuel i : ℕ)
    (st : StepDownState) :
    stepDownLoop p C u (fuel + 1) i st =
      (stepDownStep p C u i (decide (fuel = 0)) st).2 ::
        stepDownLoop p C u fuel (i + 1) (stepDownStep p C u i (decide (fuel = 0)) st).1 := rfl

/-- Behavioural summary of one protocol step: the recorded sample carries
the post-step rate and the rounded time, the hour marker becomes the floor
of the current hour, and either nothing fired (rate, last-adjustment time
unchanged, counter merely reset at an hour boundary) or the full step-down
guard held and rate, counter and last-adjustment time moved accordingly. -/
theorem stepDownStep_spec (p : PKParamsQ) (C : ProtocolSettings) (u : ℚ) (i : ℕ) (last : Bool)
    (st : StepDownState) :
    (stepDownStep p C u i last st).2.infusionRate = (stepDownStep p C u i last st).1.rate ∧
    (stepDownStep p C u i last st).2.time = round1 ((i : ℚ) * C.timeStep) ∧
    (stepDownStep p C u i last st).1.currentHour
      = max st.currentHour ⌊((i : ℚ) * C.timeStep) / 60⌋ ∧
    (((stepDownStep p C u i last st).1.rate = st.rate ∧
      (stepDownStep p C u i last st).1.lastAdjustmentTime = st.lastAdjustmentTime ∧
      (stepDownStep p C u i last st).1.adjustmentsThisHour
        = (if st.currentHour < ⌊((i : ℚ) * C.timeStep) / 60⌋ then 0
            else st.adjustmentsThisHour)) ∨
     (u ≤ (stepDownStep p C u i last st).2.ce ∧
      C.adjustmentInterval ≤ (i : ℚ) * C.timeStep - st.lastAdjustmentTime ∧
      (if st.currentHour < ⌊((i : ℚ) * C.timeStep) / 60⌋ then 0 else st.adjustmentsThisHour)
        < C.maxAdjustmentsPerHour ∧
      C.minimumRate < st.rate ∧
      (stepDownStep p C u i last st).1.rate = max C.minimumRate (st.rate * C.reductionFactor) ∧
      (stepDownStep p C u i last st).1.lastAdjustmentTime = (i : ℚ) * C.timeStep ∧
      (stepDownStep p C u i last st).1.adjustmentsThisHour
        = (if st.currentHour < ⌊((i : ℚ) * C.timeStep) / 60⌋ then 0
            else st.adjustmentsThisHour) + 1)) := by
  unfold stepDownStep
  dsimp only
  split_ifs with h1 h2 h3 h4 h5 h6 h7 h8 h9 h10 <;>
    refine ⟨rfl, rfl, ?_, ?_⟩ <;>
    try first
      | exact (max_eq_right (le_of_lt (by assumption))).symm
      | exact (max_eq_left (not_lt.mp (by assumption))).symm
  all_goals (first | (left; exact ⟨rfl, rfl, rfl⟩) | skip)
  all_goals (right; refine ⟨?_, ?_, ?_, ?_, rfl, rfl, ?_⟩ <;> simp_all)

/-- Master invariant of the step-down loop: provided the previous sample
carries the current rate, the hour marker does not exceed the hour of the
next sample and the hourly counter is within bounds, the adjustments
extracted from the remaining trace keep at least `adjustmentInterval`
minutes apart (also from the state's last adjustment), stay within
`maxAdjustmentsPerHour` per hour block, and each one applies
`max minimumRate (oldRate * reductionFactor)` with the effect-site
concentration at or above the threshold and the old rate above the
minimum.  `timeStep` is assumed to be a positive multiple of `1/10` so
that the recorded rounded times are exact. -/
theorem stepDown_master (p : PKParamsQ) (C : ProtocolSettings) (u target : ℚ)
    (m : ℕ) (hm : 0 < m) (hts : C.timeStep = (m : ℚ) / 10) (hint : 0 ≤ C.adjustmentInterval) :
    ∀ (fuel : ℕ) (i : ℕ) (st : StepDownState) (prev : TracePoint) (n : ℕ),
      prev.infusionRate = st.rate →
      st.currentHour ≤ ⌊((i : ℚ) * C.timeStep) / 60⌋ →
      st.adjustmentsThisHour ≤ C.maxAdjustmentsPerHour →
      (∀ e ∈ extractAdjustments target (prev :: stepDownLoop p C u fuel i st) n,
          st.lastAdjustmentTime + C.adjustmentInterval ≤ e.time) ∧
      List.Pairwise (fun e f => e.time + C.adjustmentInterval ≤ f.time)
        (extractAdjustments target (prev :: stepDownLoop p C u fuel i st) n) ∧
      (∀ h : ℤ,
        (h < st.currentHour →
          List.countP (fun e => decide (⌊e.time / 60⌋ = h))
            (extractAdjustments target (prev :: stepDownLoop p C u fuel i st) n) = 0) ∧
        List.countP (fun e => decide (⌊e.time / 60⌋ = h))
            (extractAdjustments target (prev :: stepDownLoop p C u fuel i st) n)
          + (if h = st.currentHour then st.adjustmentsThisHour else 0)
          ≤ C.maxAdjustmentsPerHour) ∧
      (∀ e ∈ extractAdjustments target (prev :: stepDownLoop p C u fuel i st) n,
        e.newRate = max C.minimumRate (e.oldRate * C.reductionFactor) ∧
        u ≤ e.ceAtEvent ∧ C.minimumRate < e.oldRate) := by
  intro fuel
  induction fuel with
  | zero =>
    intro i st prev n _ _ h3
    refine ⟨?_, ?_, ?_, ?_⟩
    · intro e he
      simp [stepDownLoop, extractAdjustments] at he
    · simp [stepDownLoop, extractAdjustments]
    · intro h
      refine ⟨fun _ => by simp [stepDownLoop, extractAdjustments], ?_⟩
      simp only [stepDownLoop, extractAdjustments, List.countP_nil, Nat.zero_add]
      split
      · exact h3
      · exact Nat.zero_le _
    · intro e he
      simp [stepDownLoop, extractAdjustments] at he
  | succ fuel ih =>
    intro i st prev n hlink hcur hcnt
    rw [stepDownLoop_succ]
    obtain ⟨s1, s2, s3, sOr⟩ := stepDownStep_spec p C u i (decide (fuel = 0)) st
    set r := stepDownStep p C u i (decide (fuel = 0)) st with hrdef
    have hdt0 : (0:ℚ) < C.timeStep := by rw [hts]; positivity
    have htp_time : r.2.time = (i : ℚ) * C.timeStep := by
      rw [s2, hts, round1_natMul]
    have hcurH : r.1.currentHour = ⌊((i : ℚ) * C.timeStep) / 60⌋ := by
      rw [s3]
      exact max_eq_right hcur
    have hmono : ⌊((i : ℚ) * C.timeStep) / 60⌋ ≤ ⌊(((i + 1 : ℕ) : ℚ) * C.timeStep) / 60⌋ := by
      refine Int.floor_le_floor ?_
      refine div_le_div_of_nonneg_right ?_ (by norm_num)
      have hii : (i : ℚ) ≤ ((i + 1 : ℕ) : ℚ) := by push_cast; linarith
      nlinarith
    have hcur' : r.1.currentHour ≤ ⌊(((i + 1 : ℕ) : ℚ) * C.timeStep) / 60⌋ := by
      rw [hcurH]; exact hmono
    rcases sOr with ⟨hrate, hlast, hcnt1⟩ | ⟨hce, hgap, hcnt1lt, hratemin, hnewrate, hlastt, hcnteq⟩
    · -- no step-down fired at this sample
      have hsame : r.2.infusionRate = prev.infusionRate := by rw [s1, hrate, hlink]
      have hcond : ¬ (1/10 < |r.2.infusionRate - prev.infusionRate|) := by
        rw [hsame]
        simp
      have hcnt' : r.1.adjustmentsThisHour ≤ C.maxAdjustmentsPerHour := by
        rw [hcnt1]
        split
        · exact Nat.zero_le _
        · exact hcnt
      obtain ⟨k1, k2, k3, k4⟩ := ih (i + 1) r.1 r.2 n s1 hcur' hcnt'
      simp only [extractAdjustments_cons, if_neg hcond]
      refine ⟨?_, k2, ?_, k4⟩
      · intro e he
        have hk := k1 e he
        rw [hlast] at hk
        exact hk
      · intro h
        have hk3 := k3 h
        refine ⟨?_, ?_⟩
        · intro hlt
          exact hk3.1 (by rw [hcurH]; exact lt_of_lt_of_le hlt hcur)
        · by_cases hRESET : st.currentHour < ⌊((i : ℚ) * C.timeStep) / 60⌋
          · rw [if_pos hRESET] at hcnt1
            by_cases hh : h = st.currentHour
            · have hc0 := hk3.1 (by rw [hcurH, hh]; exact hRESET)
              rw [hc0, if_pos hh]
              omega
            · rw [if_neg hh]
              exact le_trans (Nat.le_add_right _ _) hk3.2
          · have hEq : st.currentHour = ⌊((i : ℚ) * C.timeStep) / 60⌋ :=
              le_antisymm hcur (not_lt.mp hRESET)
            rw [if_neg hRESET] at hcnt1
            have hcc : r.1.currentHour = st.currentHour := by rw [hcurH, ← hEq]
            have hk := hk3.2
            rw [hcc, hcnt1] at hk
            exact hk
    · -- the step-down guard held at this sample
      have hcnt' : r.1.adjustmentsThisHour ≤ C.maxAdjustmentsPerHour := by
        rw [hcnteq]
        omega
      have hlastle : st.lastAdjustmentTime ≤ (i : ℚ) * C.timeStep := by linarith
      by_cases hemit : 1/10 < |r.2.infusionRate - prev.infusionRate|
      · obtain ⟨k1, k2, k3, k4⟩ := ih (i + 1) r.1 r.2 (n + 1) s1 hcur' hcnt'
        simp only [extractAdjustments_cons, if_pos hemit]
        refine ⟨?_, ?_, ?_, ?_⟩
        · intro e he
          rcases List.mem_cons.mp he with heq | he'
          · rw [heq]
            simp only [htp_time]
            linarith
          · have hk := k1 e he'
            rw [hlastt] at hk
            linarith
        · rw [List.pairwise_cons]
          refine ⟨?_, k2⟩
          intro f hf
          have hk := k1 f hf
          rw [hlastt] at hk
          simpa [htp_time] using hk
        · intro h
          have hk3a := (k3 h).1
          have hk3b := (k3 h).2
          rw [hcurH] at hk3a
          rw [hcurH, hcnteq] at hk3b
          refine ⟨?_, ?_⟩
          · intro hlt
            have hne : ¬ (⌊((i : ℚ) * C.timeStep) / 60⌋ = h) := by omega
            rw [List.countP_cons]
            have hc0 := hk3a (by omega)
            simp only [hc0]
            simp [htp_time, hne]
          · rw [List.countP_cons]
            by_cases hh : ⌊((i : ℚ) * C.timeStep) / 60⌋ = h
            · by_cases hRESET : st.currentHour < ⌊((i : ℚ) * C.timeStep) / 60⌋
              · rw [if_pos hRESET] at hk3b
                have hne2 : ¬ (h = st.currentHour) := by omega
                rw [if_neg hne2]
                have hone : (if h = ⌊((i : ℚ) * C.timeStep) / 60⌋ then 0 + 1 else 0) = 1 := by
                  rw [if_pos (by omega)]
                rw [hone] at hk3b
                simp [htp_time, hh]
                omega
              · have hEq : st.currentHour = ⌊((i : ℚ) * C.timeStep) / 60⌋ :=
                  le_antisymm hcur (not_lt.mp hRESET)
                rw [if_neg hRESET] at hk3b
                rw [if_pos (by omega : h = st.currentHour)]
                rw [if_pos (by omega : h = ⌊((i : ℚ) * C.timeStep) / 60⌋)] at hk3b
                simp [htp_time, hh]
                omega
            · simp only [htp_time]
              rw [if_neg (by simpa using hh)]
              by_cases hh2 : h = st.currentHour
              · have hc0 := hk3a (by omega)
                rw [if_pos hh2, hc0]
                omega
              · rw [if_neg hh2]
                rw [if_neg (by omega : ¬ (h = ⌊((i : ℚ) * C.timeStep) / 60⌋))] at hk3b
                omega
        · intro e he
          rcases List.mem_cons.mp he with heq | he'
          · rw [heq]
            refine ⟨?_, hce, ?_⟩
            · show r.2.infusionRate = max C.minimumRate (prev.infusionRate * C.reductionFactor)
              rw [s1, hnewrate, hlink]
            · show C.minimumRate < prev.infusionRate
              rw [hlink]
              exact hratemin
          · exact k4 e he'
      · obtain ⟨k1, k2, k3, k4⟩ := ih (i + 1) r.1 r.2 n s1 hcur' hcnt'
        simp only [extractAdjustments_cons, if_neg hemit]
        refine ⟨?_, k2, ?_, k4⟩
        · intro e he
          have hk := k1 e he
          rw [hlastt] at hk
          linarith
        · intro h
          have hk3a := (k3 h).1
          have hk3b := (k3 h).2
          rw [hcurH] at hk3a
          rw [hcurH, hcnteq] at hk3b
          refine ⟨?_, ?_⟩
          · intro hlt
            exact hk3a (by omega)
          · by_cases hh : h = ⌊((i : ℚ) * C.timeStep) / 60⌋
            · rw [if_pos hh] at hk3b
              by_cases hRESET : st.currentHour < ⌊((i : ℚ) * C.timeStep) / 60⌋
              · rw [if_pos hRESET] at hk3b
                rw [if_neg (by omega : ¬ (h = st.currentHour))]
                omega
              · have hEq : st.currentHour = ⌊((i : ℚ) * C.timeStep) / 60⌋ :=
                  le_antisymm hcur (not_lt.mp hRESET)
                rw [if_neg hRESET] at hk3b
                rw [if_pos (by omega : h = st.currentHour)]
                omega
            · rw [if_neg hh] at hk3b
              by_cases hh2 : h = st.currentHour
              · by_cases hRESET : st.currentHour < ⌊((i : ℚ) * C.timeStep) / 60⌋
                · have hc0 := hk3a (by omega)
                  rw [if_pos hh2, hc0]
                  omega
                · have hEq : st.currentHour = ⌊((i : ℚ) * C.timeStep) / 60⌋ :=
                    le_antisymm hcur (not_lt.mp hRESET)
                  omega
              · rw [if_neg hh2]
                omega

/-- Claim C3, amended.  For every protocol run whose step size is a
positive multiple of one tenth of a minute and whose adjustment interval
is non-negative, the emitted `dosageAdjustments` list satisfies: any two
adjustments are at least `adjustmentInterval` minutes apart; at most
`maxAdjustmentsPerHour` adjustments fall in any one clock-hour block
`[60h, 60(h+1))` (the source counts per hour block, not per sliding
60-minute window, which the companion counterexample separates); and every
adjustment has `newRate = max minimumRate (oldRate * reductionFactor)`,
was triggered with the effect-site concentration at or above
`targetCe * upperThresholdFactor`, and had its old rate above
`minimumRate`. -/
theorem claim_C3_amended (p : PKParamsQ) (C : ProtocolSettings)
    (bolusDoseMg initialContinuousRate targetCe : ℚ) (m : ℕ)
    (hm : 0 < m) (hts : C.timeStep = (m : ℚ) / 10) (hint : 0 ≤ C.adjustmentInterval) :
    List.Pairwise (fun e f => e.time + C.adjustmentInterval ≤ f.time)
      (dosageAdjustments p C bolusDoseMg initialContinuousRate targetCe) ∧
    (∀ h : ℤ,
      List.countP (fun e => decide (⌊e.time / 60⌋ = h))
        (dosageAdjustments p C bolusDoseMg initialContinuousRate targetCe)
        ≤ C.maxAdjustmentsPerHour) ∧
    (∀ e ∈ dosageAdjustments p C bolusDoseMg initialContinuousRate targetCe,
      e.newRate = max C.minimumRate (e.oldRate * C.reductionFactor) ∧
      targetCe * C.upperThresholdFactor ≤ e.ceAtEvent ∧
      C.minimumRate < e.oldRate) := by
  have hu := stepDown_master p C (targetCe * C.upperThresholdFactor) targetCe m hm hts hint
  have hd : dosageAdjustments p C bolusDoseMg initialContinuousRate targetCe
      = extractAdjustments targetCe
          (stepDownLoop p C (targetCe * C.upperThresholdFactor)
            ((⌊C.simulationDuration / C.timeStep⌋ + 1).toNat) 0
            ⟨⟨bolusDoseMg, 0, 0⟩, 0, initialContinuousRate, -C.adjustmentInterval, 0, 0, 0⟩) 0 :=
    rfl
  rw [hd]
  cases hN : (⌊C.simulationDuration / C.timeStep⌋ + 1).toNat with
  | zero =>
    refine ⟨by simp [stepDownLoop, extractAdjustments], ?_, ?_⟩
    · intro h
      simp [stepDownLoop, extractAdjustments]
    · intro e he
      simp [stepDownLoop, extractAdjustments] at he
  | succ fuel =>
    rw [stepDownLoop_succ]
    obtain ⟨s1, s2, s3, sOr⟩ := stepDownStep_spec p C (targetCe * C.upperThresholdFactor) 0
      (decide (fuel = 0))
      (⟨⟨bolusDoseMg, 0, 0⟩, 0, initialContinuousRate, -C.adjustmentInterval, 0, 0, 0⟩ :
        StepDownState)
    set r := stepDownStep p C (targetCe * C.upperThresholdFactor) 0 (decide (fuel = 0))
      (⟨⟨bolusDoseMg, 0, 0⟩, 0, initialContinuousRate, -C.adjustmentInterval, 0, 0, 0⟩ :
        StepDownState) with hrdef
    have hcur0 : r.1.currentHour = 0 := by
      rw [s3]
      norm_num
    have hM2 : r.1.currentHour ≤ ⌊((1 : ℕ) : ℚ) * C.timeStep / 60⌋ := by
      rw [hcur0]
      refine Int.le_floor.mpr ?_
      push_cast
      rw [hts]
      positivity
    have hM3 : r.1.adjustmentsThisHour ≤ C.maxAdjustmentsPerHour := by
      rcases sOr with ⟨_, _, hcnt1⟩ | ⟨_, _, hcnt1lt, _, _, _, hcnteq⟩
      · rw [hcnt1]
        split <;> simp
      · rw [hcnteq]
        omega
    obtain ⟨k1, k2, k3, k4⟩ := hu fuel 1 r.1 r.2 0 s1 hM2 hM3
    refine ⟨k2, ?_, k4⟩
    intro h
    exact le_trans (Nat.le_add_right _ _) (k3 h).2

/-- Witness for the amended claim C3 at the counterexample's concrete run:
the hypotheses hold for step size `5 = 50/10` and interval `5`, and the
conclusion is produced by the amended theorem itself. -/
theorem claim_C3_witness :
    0 < 50 ∧ protoSettingsCx.timeStep = ((50 : ℕ) : ℚ) / 10 ∧
    0 ≤ protoSettingsCx.adjustmentInterval ∧
    (List.Pairwise (fun e f => e.time + protoSettingsCx.adjustmentInterval ≤ f.time)
      (dosageAdjustments pkProto protoSettingsCx 100 100 3) ∧
    (∀ h : ℤ,
      List.countP (fun e => decide (⌊e.time / 60⌋ = h))
        (dosageAdjustments pkProto protoSettingsCx 100 100 3)
        ≤ protoSettingsCx.maxAdjustmentsPerHour) ∧
    (∀ e ∈ dosageAdjustments pkProto protoSettingsCx 100 100 3,
      e.newRate = max protoSettingsCx.minimumRate
        (e.oldRate * protoSettingsCx.reductionFactor) ∧
      3 * protoSettingsCx.upperThresholdFactor ≤ e.ceAtEvent ∧
      protoSettingsCx.minimumRate < e.oldRate)) :=
  ⟨by norm_num, by norm_num [protoSettingsCx], by norm_num [protoSettingsCx],
   claim_C3_amended pkProto protoSettingsCx 100 100 3 50 (by norm_num)
     (by norm_num [protoSettingsCx]) (by norm_num [protoSettingsCx])⟩

/-- At the reference covariates the Al-Sallami fat-free mass computed by
`calculateFFM` coincides with the hard-coded reference value `ffmRef`. -/
theorem ffm_referencePatient : calculateFFM referencePatient = ffmRef := by
  unfold calculateFFM ffmRef patientBMI referencePatient
  norm_num

/-- The reference fat-free mass is positive (both Al-Sallami summands
are positive at the reference covariates). -/
theorem ffmRef_pos : 0 < ffmRef := by
  unfold ffmRef
  have h2 : ((70 : ℝ) / 170) ^ (2 : ℝ) = ((70 : ℝ) / 170) ^ (2 : ℕ) := by
    rw [← Real.rpow_natCast]
    norm_num
  have hb : (0 : ℝ) < (1.7 : ℝ) ^ (2 : ℝ) := Real.rpow_pos_of_pos (by norm_num) _
  have hs : (0 : ℝ) < ((35 : ℝ) / 13.4) ^ (-12.7 : ℝ) := Real.rpow_pos_of_pos (by norm_num) _
  have hterm : (0 : ℝ) < 1.11 * 70 - 128 * ((70 : ℝ) / 170) ^ (2 : ℝ) := by
    rw [h2]
    norm_num
  have hbmi : (0 : ℝ) < 70 / (1.7 : ℝ) ^ (2 : ℝ) := by positivity
  positivity

/-- Exact value of the reference patient's `V3`: the fat-free-mass ratio is
`1`, but the opioid factor `exp(-0.0138 * 35)` survives, since the default
opioid setting is co-administration. -/
theorem refV3_eq : (calculatePKParameters referencePatient).V3 = 273 * Real.exp (-0.483) := by
  have hffm := ffm_referencePatient
  have hpos := ffmRef_pos
  unfold calculatePKParameters
  dsimp only
  rw [hffm, div_self (ne_of_gt hpos)]
  unfold f_opiates referencePatient
  norm_num

/-- Claim C1 counterexample: for the reference patient with opioid
co-administration (the default), `calculatePKParameters` returns
`V3 = 273 * exp(-0.483) ≈ 168.4 L`, which is not within 0.5% of the
spec's listed 273 L, refuting "each value within 0.5% of the listed
number". -/
theorem claim_C1_counterexample :
    ¬ |(calculatePKParameters referencePatient).V3 - 273| ≤ 0.005 * 273 := by
  rw [refV3_eq]
  have hexp : Real.exp (-0.483) ≤ 1 / 1.483 := by
    rw [Real.exp_neg, one_div]
    refine inv_anti₀ (by norm_num) ?_
    have h := Real.add_one_le_exp (0.483 : ℝ)
    linarith
  have hpos : (0 : ℝ) < Real.exp (-0.483) := Real.exp_pos _
  have h1 : (273 : ℝ) * Real.exp (-0.483) ≤ 273 * (1 / 1.483) :=
    mul_le_mul_of_nonneg_left hexp (by norm_num)
  have h2 : |(273 : ℝ) * Real.exp (-0.483) - 273| = 273 - 273 * Real.exp (-0.483) := by
    rw [abs_of_nonpos (by linarith)]
    ring
  rw [not_le, h2]
  linarith

/-- Claim C1, amended.  For the reference patient (35 y, 70 kg, 170 cm,
male, opioid co-administration = yes) the derivation returns exactly
`V1 = 6.28`, `V2 = 25.5`, `ke0 = 0.146`, `ce50 = 3.08`,
`bis_baseline = 93.0`, `γ_low = 1.89` and `γ_high = 1.47` (all matching
the spec's numbers), but the opioid and maturation factors leave
`V3 = 273·exp(-0.483) ≈ 168.4` (not `≈ 273`),
`CL = 1.79·exp(-0.1001) ≈ 1.62` (not `≈ 1.79`),
`Q2 = 1.83·(1 + 1.3·683/19283) ≈ 1.914` (not `≈ 1.83`) and
`Q3 = 1.11·exp(-0.36225) ≈ 0.773` (not `≈ 1.11`). -/
theorem claim_C1_amended :
    (calculatePKParameters referencePatient).V1 = 6.28 ∧
    (calculatePKParameters referencePatient).V2 = 25.5 ∧
    (calculatePKParameters referencePatient).V3 = 273 * Real.exp (-0.483) ∧
    (calculatePKParameters referencePatient).CL = 1.79 * Real.exp (-0.1001) ∧
    (calculatePKParameters referencePatient).Q2 = 1.83 * (1 + 1.30 * (683 / 19283)) ∧
    (calculatePKParameters referencePatient).Q3 = 1.11 * Real.exp (-0.36225) ∧
    (calculatePDParameters referencePatient).ke0 = 0.146 ∧
    (calculatePDParameters referencePatient).ce50 = 3.08 ∧
    (calculatePDParameters referencePatient).bisBaseline = 93.0 ∧
    (calculatePDParameters referencePatient).gammaLow = 1.89 ∧
    (calculatePDParameters referencePatient).gammaHigh = 1.47 := by
  have hsig70 : f_sigmoid 70 33.6 1 ≠ 0 := by
    unfold f_sigmoid
    rw [Real.rpow_one, Real.rpow_one]
    norm_num
  have hsigCL : f_sigmoid (35 * 52 + 40) 42.3 9.06 ≠ 0 := by
    have hp : (0:ℝ) < f_sigmoid (35 * 52 + 40) 42.3 9.06 := by
      unfold f_sigmoid
      have h1 : (0:ℝ) < ((35:ℝ) * 52 + 40) ^ (9.06:ℝ) := Real.rpow_pos_of_pos (by norm_num) _
      have h2 : (0:ℝ) < ((42.3:ℝ)) ^ (9.06:ℝ) := Real.rpow_pos_of_pos (by norm_num) _
      positivity
    exact ne_of_gt hp
  have hsigQ3 : f_sigmoid (35 * 52 + 40) 68.3 1 = 1860 / 1928.3 := by
    unfold f_sigmoid
    rw [Real.rpow_one, Real.rpow_one]
    norm_num
  have hsigQ3ne : f_sigmoid (35 * 52 + 40) 68.3 1 ≠ 0 := by
    rw [hsigQ3]
    norm_num
  have hffm := ffm_referencePatient
  have hposf := ffmRef_pos
  have hone : ((70:ℝ) / 70) = 1 := by norm_num
  refine ⟨?_, ?_, ?_, ?_, ?_, ?_, ?_, ?_, ?_, ?_, ?_⟩
  · unfold calculatePKParameters referencePatient
    dsimp only
    rw [div_self hsig70, mul_one]
  · unfold calculatePKParameters referencePatient f_ageing
    dsimp only
    norm_num
  · exact refV3_eq
  · unfold calculatePKParameters referencePatient f_opiates patientPMA
    dsimp only
    rw [div_self hsigCL, hone, Real.one_rpow]
    norm_num
  · unfold calculatePKParameters referencePatient f_ageing patientPMA
    dsimp only
    rw [hsigQ3, hone]
    norm_num
  · unfold calculatePKParameters
    dsimp only
    rw [hffm, div_self (ne_of_gt hposf)]
    unfold f_opiates patientPMA referencePatient
    dsimp only
    rw [div_self hsigQ3ne, if_pos rfl, mul_one]
    have hbase : (273:ℝ) * 1 * Real.exp (-138e-4 * 35) / 273 = Real.exp (-0.483) := by
      rw [mul_one, mul_comm, mul_div_assoc]
      norm_num
    rw [hbase, ← Real.exp_mul]
    norm_num
  · unfold calculatePDParameters referencePatient
    dsimp only
    rw [hone, Real.one_rpow]
    norm_num
  · unfold calculatePDParameters referencePatient
    dsimp only
    norm_num
  · rfl
  · rfl
  · rfl
